import Mathlib

/-!
Verification of the yali storage device tree and operation scheduler
(`yali/storage/devicetree.py`).

The file shallowly embeds the data model and the algorithms of
`DeviceTree`: the operation log and `pruneOperations`, the pairwise
comparator `cmpOperations` used by `processOperations` to order the log,
the device graph mutators `_addDevice` / `_removeDevice`, operation
registration `addOperation` and cancellation `removeOperation`, and the
execute/retry loop of `processOperations`.

Python-specific conventions used throughout:
* Python objects compare by identity unless a class defines `__eq__`.
  Operations and devices are given a unique numeric identity (`uid`,
  `devid`); list membership, `list.remove` and `list.index` are embedded
  as first-match-by-identity, which coincides with Python's semantics
  whenever identities are distinct (they are: both ids come from global
  counters in the source).
* A Python `raise` aborts the method but leaves all mutations made so
  far in place.  Methods that mutate state before they can raise are
  embedded as functions returning the final state together with an
  optional error.
-/

namespace Yali

/-- Operation lifecycle kind (`operation.type` in the source). -/
inductive OpType
  | create
  | destroy
  | resize
  | migrate
  deriving DecidableEq, Repr

/-- Operation operand kind (`operation.obj` in the source): the operation
targets either the device itself or its format. -/
inductive OpObj
  | device
  | format
  deriving DecidableEq, Repr

/-- A pending operation as seen by `pruneOperations`.  `uid` is the
object identity of the operation (Python objects compare by identity);
`devid` is `operation.device.id`.  `size` records the requested target
size of a resize; `pruneOperations` never reads it. -/
structure Op where
  uid : Nat
  type : OpType
  obj : OpObj
  devid : Nat
  size : Nat
  deriving DecidableEq, Repr

def Op.isCreate (o : Op) : Bool := o.type == OpType.create

def Op.isDestroy (o : Op) : Bool := o.type == OpType.destroy

def Op.isResize (o : Op) : Bool := o.type == OpType.resize

def Op.isMigrate (o : Op) : Bool := o.type == OpType.migrate

def Op.isDevice (o : Op) : Bool := o.obj == OpObj.device

def Op.isFormat (o : Op) : Bool := o.obj == OpObj.format

/-- Python `op in operations` (identity-based membership). -/
def containsUid (L : List Op) (u : Nat) : Bool :=
  L.any (fun o => o.uid == u)

/-- Python `operations.remove(op)`: drop the first occurrence. -/
def removeFirstUid : List Op → Nat → List Op
  | [], _ => []
  | o :: rest, u => if o.uid == u then rest else o :: removeFirstUid rest u

/-- Python `operations.index(op)`: index of the first occurrence.  The
source only calls `.index` on operations known to be present; on an
absent identity this total embedding returns the length. -/
def idxOfUid : List Op → Nat → Nat
  | [], _ => 0
  | o :: rest, u => if o.uid == u then 0 else idxOfUid rest u + 1

/-- Embedding of `DeviceTree.findOperations` restricted to the filters the pruning
passes use (`devid`, `type`, `object`); `none` means "match any".  The
source converts string arguments to operation classes first; the
embedding takes the enum values directly. -/
def findOps (L : List Op) (devid : Option Nat) (t : Option OpType)
    (obj : Option OpObj) : List Op :=
  L.filter (fun o =>
    (match devid with
     | none => true
     | some d => o.devid == d) &&
    (match t with
     | none => true
     | some x => o.type == x) &&
    (match obj with
     | none => true
     | some x => o.obj == x))

/-- The removal loop of the destroy passes (`devicetree.py` lines
512-519 and 646-653): for each `rem`, recompute `end`, remove `rem` if
its current index lies in `[start, end]`, and break after processing
`stop_operation`. -/
def removalLoopD (start stopUid : Nat) : List Op → List Op → List Op
  | [], cur => cur
  | rem :: rest, cur =>
    let e := idxOfUid cur stopUid
    let i := idxOfUid cur rem.uid
    let cur1 := if start ≤ i ∧ i ≤ e then removeFirstUid cur rem.uid else cur
    if rem.uid == stopUid then cur1 else removalLoopD start stopUid rest cur1

/-- The removal loop of the create passes (`devicetree.py` lines 567-574
and 703-710): break **before** processing `stop_operation`, and remove
`rem` only if its current index lies in `[start, end)`. -/
def removalLoopC (start stopUid : Nat) : List Op → List Op → List Op
  | [], cur => cur
  | rem :: rest, cur =>
    if rem.uid == stopUid then cur
    else
      let e := idxOfUid cur stopUid
      let i := idxOfUid cur rem.uid
      let cur1 := if start ≤ i ∧ i < e then removeFirstUid cur rem.uid else cur
      removalLoopC start stopUid rest cur1

/-- One iteration of the device-destroy pruning pass (`devicetree.py`
lines 449-519), acting on the live log `cur` for the snapshot element
`a`. -/
def destroyDevIter (cur : List Op) (a : Op) : List Op :=
  if ¬ containsUid cur a.uid then cur
  else
    let destroys := findOps cur (some a.devid) (some OpType.destroy) (some OpObj.device)
    let creates := findOps cur (some a.devid) (some OpType.create) (some OpObj.device)
    let st1 : Option (Nat × Op) :=
      if destroys.length > 1 then
        some (idxOfUid cur a.uid + 1, destroys.getLastD a)
      else none
    let st2 : Option (Nat × Op) :=
      match creates with
      | [] => st1
      | c :: _ =>
        let fci := idxOfUid cur c.uid
        let keep :=
          match st1 with
          | none => true
          | some _ => decide (idxOfUid cur (destroys.headD a).uid > fci)
        if keep then some (fci, destroys.getLastD a) else st1
    match st2 with
    | some (start, stop) =>
      let devOps := findOps cur (some a.devid) none none
      removalLoopD start stop.uid devOps cur
    | none =>
      -- only one device destroy: prune preceding resizes and format
      -- creates/migrates (the in-place filter of `dev_operations`)
      let devOps := findOps cur (some a.devid) none none
      let kept := devOps.filter (fun o => o.isResize || (o.isFormat && !o.isDestroy))
      match kept with
      | [] => cur
      | k :: _ =>
        let start := idxOfUid cur k.uid
        let stop := kept.getLastD k
        removalLoopD start stop.uid kept cur

/-- One iteration of the device-create pruning pass (`devicetree.py`
lines 523-574). -/
def createDevIter (cur : List Op) (a : Op) : List Op :=
  if ¬ containsUid cur a.uid then cur
  else
    let creates := findOps cur (some a.devid) (some OpType.create) (some OpObj.device)
    let destroys := findOps cur (some a.devid) (some OpType.destroy) (some OpObj.device)
    let st1 : Option (Nat × Op) :=
      if creates.length > 1 then some (0, creates.getLastD a) else none
    let st2 : Option (Nat × Op) :=
      match destroys with
      | [] => st1
      | d :: _ =>
        let fdi := idxOfUid cur d.uid
        let keep :=
          match st1 with
          | none => true
          | some _ => decide (idxOfUid cur (creates.headD a).uid > fdi)
        if keep then some (fdi + 1, creates.getLastD a) else st1
    match st2 with
    | none => cur
    | some (start, stop) =>
      let devOps := findOps cur (some a.devid) none none
      removalLoopC start stop.uid devOps cur

/-- One iteration of the format-destroy pruning pass (`devicetree.py`
lines 600-653).  Unlike the device pass there is no single-destroy
special case, and the removal loop runs over the device's format
operations only. -/
def destroyFmtIter (cur : List Op) (a : Op) : List Op :=
  if ¬ containsUid cur a.uid then cur
  else
    let destroys := findOps cur (some a.devid) (some OpType.destroy) (some OpObj.format)
    let creates := findOps cur (some a.devid) (some OpType.create) (some OpObj.format)
    let st1 : Option (Nat × Op) :=
      if destroys.length > 1 then
        some (idxOfUid cur a.uid + 1, destroys.getLastD a)
      else none
    let st2 : Option (Nat × Op) :=
      match creates with
      | [] => st1
      | c :: _ =>
        let fci := idxOfUid cur c.uid
        let keep :=
          match st1 with
          | none => true
          | some _ => decide (idxOfUid cur (destroys.headD a).uid > fci)
        if keep then some (fci, destroys.getLastD a) else st1
    match st2 with
    | none => cur
    | some (start, stop) =>
      let devOps := findOps cur (some a.devid) none (some OpObj.format)
      removalLoopD start stop.uid devOps cur

/-- One iteration of the format-create pruning pass (`devicetree.py`
lines 658-710). -/
def createFmtIter (cur : List Op) (a : Op) : List Op :=
  if ¬ containsUid cur a.uid then cur
  else
    let creates := findOps cur (some a.devid) (some OpType.create) (some OpObj.format)
    let destroys := findOps cur (some a.devid) (some OpType.destroy) (some OpObj.format)
    let st1 : Option (Nat × Op) :=
      if creates.length > 1 then some (0, creates.getLastD a) else none
    let st2 : Option (Nat × Op) :=
      match destroys with
      | [] => st1
      | d :: _ =>
        let fdi := idxOfUid cur d.uid
        let keep :=
          match st1 with
          | none => true
          | some _ => decide (idxOfUid cur (creates.headD a).uid > fdi)
        if keep then some (fdi + 1, creates.getLastD a) else st1
    match st2 with
    | none => cur
    | some (start, stop) =>
      let devOps := findOps cur (some a.devid) none (some OpObj.format)
      removalLoopC start stop.uid devOps cur

/-- One iteration of the resize/migrate pruning passes (`devicetree.py`
lines 578-595, 714-731, 736-753): keep only the last operation of the
family `(t, ob)` on the device whenever more than one is present. -/
def resizeIter (ob : OpObj) (t : OpType) (cur : List Op) (a : Op) : List Op :=
  if ¬ containsUid cur a.uid then cur
  else
    let loops := findOps cur (some a.devid) (some t) (some ob)
    if loops.length == 1 then cur
    else loops.dropLast.foldl (fun c r => removeFirstUid c r.uid) cur

/-- Run one pruning pass: iterate the per-element body over the snapshot
taken at the start of the pass, threading the live log. -/
def runPass (iter : List Op → Op → List Op) (snapshot : List Op)
    (cur : List Op) : List Op :=
  snapshot.foldl iter cur

/-- Device-destroy pruning pass: snapshot all device-destroy operations,
then iterate over the snapshot against the live log. -/
def destroyDevPass (L : List Op) : List Op :=
  runPass destroyDevIter
    (findOps L none (some OpType.destroy) (some OpObj.device)) L

/-- Device-create pruning pass. -/
def createDevPass (L : List Op) : List Op :=
  runPass createDevIter
    (findOps L none (some OpType.create) (some OpObj.device)) L

/-- Device-resize pruning pass. -/
def resizeDevPass (L : List Op) : List Op :=
  runPass (resizeIter OpObj.device OpType.resize)
    (findOps L none (some OpType.resize) (some OpObj.device)) L

/-- Format-destroy pruning pass. -/
def destroyFmtPass (L : List Op) : List Op :=
  runPass destroyFmtIter
    (findOps L none (some OpType.destroy) (some OpObj.format)) L

/-- Format-create pruning pass. -/
def createFmtPass (L : List Op) : List Op :=
  runPass createFmtIter
    (findOps L none (some OpType.create) (some OpObj.format)) L

/-- Format-resize pruning pass. -/
def resizeFmtPass (L : List Op) : List Op :=
  runPass (resizeIter OpObj.format OpType.resize)
    (findOps L none (some OpType.resize) (some OpObj.format)) L

/-- Format-migrate pruning pass. -/
def migrateFmtPass (L : List Op) : List Op :=
  runPass (resizeIter OpObj.format OpType.migrate)
    (findOps L none (some OpType.migrate) (some OpObj.format)) L

/-- Embedding of `DeviceTree.pruneOperations` (`devicetree.py` lines 445-753): the
seven passes in source order, each taking its snapshot from the live
log it starts from. -/
def pruneOperations (L : List Op) : List Op :=
  migrateFmtPass (resizeFmtPass (createFmtPass (destroyFmtPass
    (resizeDevPass (createDevPass (destroyDevPass L))))))

end Yali

namespace Yali

/-! ### Basic lemmas about the list primitives -/

theorem removeFirstUid_sublist (L : List Op) (u : Nat) :
    List.Sublist (removeFirstUid L u) L := by
  induction L with
  | nil => simp [removeFirstUid]
  | cons o rest ih =>
    simp only [removeFirstUid]
    split
    · exact List.sublist_cons_self o rest
    · exact List.Sublist.cons₂ o ih

theorem removeFirstUid_subset (L : List Op) (u : Nat) :
    removeFirstUid L u ⊆ L :=
  (removeFirstUid_sublist L u).subset

theorem removeFirstUid_eq_of_not_mem {L : List Op} {u : Nat}
    (h : ∀ o ∈ L, o.uid ≠ u) : removeFirstUid L u = L := by
  induction L with
  | nil => rfl
  | cons o rest ih =>
    simp only [removeFirstUid]
    have ho : o.uid ≠ u := h o (by simp)
    simp only [beq_iff_eq, ho, if_false]
    rw [ih (fun x hx => h x (by simp [hx]))]

theorem containsUid_of_mem {L : List Op} {o : Op} (h : o ∈ L) :
    containsUid L o.uid = true := by
  simp only [containsUid, List.any_eq_true]
  exact ⟨o, h, by simp⟩

theorem not_mem_uid_of_containsUid_eq_false {L : List Op} {u : Nat}
    (h : containsUid L u = false) : ∀ o ∈ L, o.uid ≠ u := by
  intro o ho hu
  have : containsUid L u = true := by
    simp only [containsUid, List.any_eq_true]
    exact ⟨o, ho, by simp [hu]⟩
  rw [h] at this
  exact Bool.false_ne_true this

theorem filter_removeFirstUid_of_not {L : List Op} {u : Nat} {P : Op → Bool}
    (h : ∀ o ∈ L, o.uid = u → P o = false) :
    (removeFirstUid L u).filter P = L.filter P := by
  induction L with
  | nil => rfl
  | cons o rest ih =>
    simp only [removeFirstUid]
    split
    case isTrue heq =>
      have hP : P o = false := h o (by simp) (by simpa using heq)
      simp [List.filter_cons, hP]
    case isFalse heq =>
      rw [List.filter_cons, List.filter_cons,
        ih (fun x hx hxu => h x (by simp [hx]) hxu)]

theorem filter_removeFirstUid_comm {P : Op → Bool} {L : List Op} {u : Nat}
    (hnd : (L.map Op.uid).Nodup) :
    (removeFirstUid L u).filter P = removeFirstUid (L.filter P) u := by
  induction L with
  | nil => rfl
  | cons o rest ih =>
    rw [List.map_cons, List.nodup_cons] at hnd
    obtain ⟨hou, hnd2⟩ := hnd
    simp only [removeFirstUid]
    split
    case isTrue heq =>
      have heq2 : o.uid = u := by simpa using heq
      rw [List.filter_cons]
      split
      case isTrue hP =>
        simp [removeFirstUid, heq2]
      case isFalse hP =>
        rw [removeFirstUid_eq_of_not_mem]
        intro y hy hyu
        have : y.uid ∈ rest.map Op.uid :=
          List.mem_map_of_mem Op.uid (List.mem_of_mem_filter hy)
        rw [hyu, ← heq2] at this
        exact hou this
    case isFalse heq =>
      have hne : (o.uid == u) = false := by simpa using heq
      rw [List.filter_cons, List.filter_cons]
      split
      case isTrue hP =>
        simp only [removeFirstUid, hne, Bool.false_eq_true, if_false]
        rw [ih hnd2]
      case isFalse hP =>
        rw [ih hnd2]

theorem idxOfUid_cons_self (o : Op) (l : List Op) :
    idxOfUid (o :: l) o.uid = 0 := by
  simp [idxOfUid]

theorem idxOfUid_cons_ne {o : Op} {u : Nat} (l : List Op) (h : o.uid ≠ u) :
    idxOfUid (o :: l) u = idxOfUid l u + 1 := by
  simp [idxOfUid, h]

theorem idxOfUid_append_of_not {A : List Op} {u : Nat} (l : List Op)
    (h : ∀ o ∈ A, o.uid ≠ u) :
    idxOfUid (A ++ l) u = A.length + idxOfUid l u := by
  induction A with
  | nil => simp
  | cons o rest ih =>
    rw [List.cons_append, idxOfUid_cons_ne _ (h o (by simp)),
      ih (fun x hx => h x (by simp [hx]))]
    simp only [List.length_cons]
    omega

theorem removeFirstUid_append_of_not {A : List Op} {u : Nat} (l : List Op)
    (h : ∀ o ∈ A, o.uid ≠ u) :
    removeFirstUid (A ++ l) u = A ++ removeFirstUid l u := by
  induction A with
  | nil => simp
  | cons o rest ih =>
    rw [List.cons_append]
    simp only [removeFirstUid]
    have : (o.uid == u) = false := by simp [h o (by simp)]
    rw [this]
    simp only [Bool.false_eq_true, if_false]
    rw [ih (fun x hx => h x (by simp [hx])), List.cons_append]

theorem filter_eq_cons_decomp {P : Op → Bool} :
    ∀ {L : List Op} {c : Op} {cs : List Op}, L.filter P = c :: cs →
    ∃ A L2, L = A ++ c :: L2 ∧ (∀ o ∈ A, P o = false) ∧ L2.filter P = cs := by
  intro L
  induction L with
  | nil => intro c cs h; simp at h
  | cons o rest ih =>
    intro c cs h
    rw [List.filter_cons] at h
    split at h
    case isTrue hP =>
      rw [List.cons_eq_cons] at h
      obtain ⟨rfl, hrest⟩ := h
      exact ⟨[], rest, by simp, by simp, hrest⟩
    case isFalse hP =>
      obtain ⟨A, L2, hL, hA, hf⟩ := ih h
      refine ⟨o :: A, L2, by simp [hL], ?_, hf⟩
      intro x hx
      rcases List.mem_cons.mp hx with hx | hx
      · subst hx; simpa using hP
      · exact hA x hx

theorem nodup_uid_append_split {A M : List Op}
    (hnd : ((A ++ M).map Op.uid).Nodup) :
    (∀ o ∈ A, ∀ p ∈ M, o.uid ≠ p.uid) ∧
      (A.map Op.uid).Nodup ∧ (M.map Op.uid).Nodup := by
  rw [List.map_append, List.nodup_append] at hnd
  obtain ⟨h1, h2, h3⟩ := hnd
  refine ⟨?_, h1, h2⟩
  intro o ho p hp heq
  exact h3 (List.mem_map_of_mem Op.uid ho)
    (by rw [heq]; exact List.mem_map_of_mem Op.uid hp)

/-! ### The removal loops only shrink the log, and removals restricted to
operations outside a predicate leave that predicate's filter intact. -/

theorem removalLoopD_sublist (s t : Nat) (devOps : List Op) :
    ∀ cur, List.Sublist (removalLoopD s t devOps cur) cur := by
  induction devOps with
  | nil => intro cur; exact List.Sublist.refl cur
  | cons rem rest ih =>
    intro cur
    simp only [removalLoopD]
    have h1 : List.Sublist
        (if s ≤ idxOfUid cur rem.uid ∧ idxOfUid cur rem.uid ≤ idxOfUid cur t
         then removeFirstUid cur rem.uid else cur) cur := by
      split
      · exact removeFirstUid_sublist cur rem.uid
      · exact List.Sublist.refl cur
    split
    · exact h1
    · exact List.Sublist.trans (ih _) h1

theorem removalLoopC_sublist (s t : Nat) (devOps : List Op) :
    ∀ cur, List.Sublist (removalLoopC s t devOps cur) cur := by
  induction devOps with
  | nil => intro cur; exact List.Sublist.refl cur
  | cons rem rest ih =>
    intro cur
    simp only [removalLoopC]
    split
    · exact List.Sublist.refl cur
    · have h1 : List.Sublist
          (if s ≤ idxOfUid cur rem.uid ∧ idxOfUid cur rem.uid < idxOfUid cur t
           then removeFirstUid cur rem.uid else cur) cur := by
        split
        · exact removeFirstUid_sublist cur rem.uid
        · exact List.Sublist.refl cur
      exact List.Sublist.trans (ih _) h1

theorem foldRemove_sublist (ds : List Op) :
    ∀ cur, List.Sublist (ds.foldl (fun c r => removeFirstUid c r.uid) cur) cur := by
  induction ds with
  | nil => intro cur; exact List.Sublist.refl cur
  | cons r rest ih =>
    intro cur
    rw [List.foldl_cons]
    exact List.Sublist.trans (ih _) (removeFirstUid_sublist cur r.uid)

theorem removalLoopD_filter_eq {P : Op → Bool} {cur0 : List Op}
    (s t : Nat) (devOps : List Op)
    (hr : ∀ r ∈ devOps, ∀ o ∈ cur0, o.uid = r.uid → P o = false) :
    ∀ cur, cur ⊆ cur0 →
      (removalLoopD s t devOps cur).filter P = cur.filter P := by
  induction devOps with
  | nil => intro cur _; rfl
  | cons rem rest ih =>
    intro cur hsub
    simp only [removalLoopD]
    have hstep : ∀ c : List Op, c ⊆ cur0 →
        ((if s ≤ idxOfUid c rem.uid ∧ idxOfUid c rem.uid ≤ idxOfUid c t
          then removeFirstUid c rem.uid else c).filter P = c.filter P ∧
         (if s ≤ idxOfUid c rem.uid ∧ idxOfUid c rem.uid ≤ idxOfUid c t
          then removeFirstUid c rem.uid else c) ⊆ cur0) := by
      intro c hc
      split
      · refine ⟨filter_removeFirstUid_of_not ?_, ?_⟩
        · intro o ho hou
          exact hr rem (by simp) o (hc ho) hou
        · exact fun o ho => hc (removeFirstUid_subset c rem.uid ho)
      · exact ⟨rfl, hc⟩
    obtain ⟨hf, hs⟩ := hstep cur hsub
    split
    · exact hf
    · rw [ih (fun r hrm => hr r (by simp [hrm])) _ hs, hf]

theorem removalLoopC_filter_eq {P : Op → Bool} {cur0 : List Op}
    (s t : Nat) (devOps : List Op)
    (hr : ∀ r ∈ devOps, ∀ o ∈ cur0, o.uid = r.uid → P o = false) :
    ∀ cur, cur ⊆ cur0 →
      (removalLoopC s t devOps cur).filter P = cur.filter P := by
  induction devOps with
  | nil => intro cur _; rfl
  | cons rem rest ih =>
    intro cur hsub
    simp only [removalLoopC]
    split
    · rfl
    · have hstep :
          (if s ≤ idxOfUid cur rem.uid ∧ idxOfUid cur rem.uid < idxOfUid cur t
           then removeFirstUid cur rem.uid else cur).filter P = cur.filter P ∧
          (if s ≤ idxOfUid cur rem.uid ∧ idxOfUid cur rem.uid < idxOfUid cur t
           then removeFirstUid cur rem.uid else cur) ⊆ cur0 := by
        split
        · refine ⟨filter_removeFirstUid_of_not ?_, ?_⟩
          · intro o ho hou
            exact hr rem (by simp) o (hsub ho) hou
          · exact fun o ho => hsub (removeFirstUid_subset cur rem.uid ho)
        · exact ⟨rfl, hsub⟩
      obtain ⟨hf, hs⟩ := hstep
      rw [ih (fun r hrm => hr r (by simp [hrm])) _ hs, hf]

theorem foldRemove_filter_eq {P : Op → Bool} {cur0 : List Op} (ds : List Op)
    (hr : ∀ r ∈ ds, ∀ o ∈ cur0, o.uid = r.uid → P o = false) :
    ∀ cur, cur ⊆ cur0 →
      (ds.foldl (fun c r => removeFirstUid c r.uid) cur).filter P = cur.filter P := by
  induction ds with
  | nil => intro cur _; rfl
  | cons r rest ih =>
    intro cur hsub
    rw [List.foldl_cons]
    have hf : (removeFirstUid cur r.uid).filter P = cur.filter P :=
      filter_removeFirstUid_of_not (fun o ho hou => hr r (by simp) o (hsub ho) hou)
    rw [ih (fun q hq => hr q (by simp [hq])) _
      (fun o ho => hsub (removeFirstUid_subset cur r.uid ho)), hf]

theorem foldRemove_filter_comm {P : Op → Bool} (ds : List Op) :
    ∀ cur, (cur.map Op.uid).Nodup →
      (ds.foldl (fun c r => removeFirstUid c r.uid) cur).filter P =
        ds.foldl (fun m r => removeFirstUid m r.uid) (cur.filter P) := by
  induction ds with
  | nil => intro cur _; rfl
  | cons r rest ih =>
    intro cur hnd
    rw [List.foldl_cons, List.foldl_cons,
      ih _ (List.Nodup.sublist (List.Sublist.map Op.uid
        (removeFirstUid_sublist cur r.uid)) hnd),
      filter_removeFirstUid_comm hnd]

theorem foldRemove_dropLast {M : List Op} {rlast : Op}
    (hnd : (M.map Op.uid).Nodup) (hl : M.getLast? = some rlast) :
    M.dropLast.foldl (fun m r => removeFirstUid m r.uid) M = [rlast] := by
  induction M with
  | nil => simp at hl
  | cons m rest ih =>
    cases rest with
    | nil =>
      simp only [List.getLast?_singleton, Option.some_inj] at hl
      subst hl
      rfl
    | cons m2 r2 =>
      rw [List.map_cons, List.nodup_cons] at hnd
      obtain ⟨hmu, hnd2⟩ := hnd
      have hdl : (m :: m2 :: r2).dropLast = m :: (m2 :: r2).dropLast := by
        simp [List.dropLast]
      rw [hdl, List.foldl_cons]
      have hrm : removeFirstUid (m :: m2 :: r2) m.uid = m2 :: r2 := by
        simp [removeFirstUid]
      rw [hrm]
      exact ih hnd2 (by simpa using hl)

/-! ### Each pruning iteration only shrinks the log -/

theorem destroyDevIter_sublist (cur : List Op) (a : Op) :
    List.Sublist (destroyDevIter cur a) cur := by
  simp only [destroyDevIter]
  split
  · exact List.Sublist.refl cur
  · split
    · exact removalLoopD_sublist _ _ _ cur
    · split
      · exact List.Sublist.refl cur
      · exact removalLoopD_sublist _ _ _ cur

theorem createDevIter_sublist (cur : List Op) (a : Op) :
    List.Sublist (createDevIter cur a) cur := by
  simp only [createDevIter]
  split
  · exact List.Sublist.refl cur
  · split
    · exact List.Sublist.refl cur
    · exact removalLoopC_sublist _ _ _ cur

theorem destroyFmtIter_sublist (cur : List Op) (a : Op) :
    List.Sublist (destroyFmtIter cur a) cur := by
  simp only [destroyFmtIter]
  split
  · exact List.Sublist.refl cur
  · split
    · exact List.Sublist.refl cur
    · exact removalLoopD_sublist _ _ _ cur

theorem createFmtIter_sublist (cur : List Op) (a : Op) :
    List.Sublist (createFmtIter cur a) cur := by
  simp only [createFmtIter]
  split
  · exact List.Sublist.refl cur
  · split
    · exact List.Sublist.refl cur
    · exact removalLoopC_sublist _ _ _ cur

theorem resizeIter_sublist (ob : OpObj) (t : OpType) (cur : List Op) (a : Op) :
    List.Sublist (resizeIter ob t cur a) cur := by
  simp only [resizeIter]
  split
  · exact List.Sublist.refl cur
  · split
    · exact List.Sublist.refl cur
    · exact foldRemove_sublist _ cur

/-! ### Removals of one iteration never touch operations outside its
device fiber (and, for the format/resize families, outside the family) -/

theorem mem_findOps_facts {cur : List Op} {r : Op} {x : Nat}
    {t : Option OpType} {ob : Option OpObj}
    (hrm : r ∈ findOps cur (some x) t ob) :
    r ∈ cur ∧ r.devid = x ∧ (∀ t0, t = some t0 → r.type = t0) ∧
      (∀ o0, ob = some o0 → r.obj = o0) := by
  have hrc : r ∈ cur := List.mem_of_mem_filter hrm
  have hp := List.of_mem_filter hrm
  refine ⟨hrc, ?_, ?_, ?_⟩
  · cases t <;> cases ob <;> simp at hp <;> tauto
  · intro t0 ht; subst ht; cases ob <;> simp at hp <;> tauto
  · intro o0 ho; subst ho; cases t <;> simp at hp <;> tauto

theorem destroyDevIter_filter_eq {P : Op → Bool} {cur : List Op} {a : Op}
    (hnd : (cur.map Op.uid).Nodup)
    (h : ∀ o ∈ cur, o.devid = a.devid → P o = false) :
    (destroyDevIter cur a).filter P = cur.filter P := by
  have hr : ∀ r ∈ findOps cur (some a.devid) none none,
      ∀ o ∈ cur, o.uid = r.uid → P o = false := by
    intro r hrm o ho hou
    obtain ⟨hrc, hrd, -, -⟩ := mem_findOps_facts hrm
    have heq : o = r := List.inj_on_of_nodup_map hnd ho hrc hou
    rw [heq]
    exact h r hrc hrd
  simp only [destroyDevIter]
  split
  · rfl
  · split
    · exact removalLoopD_filter_eq _ _ _ hr cur (fun o ho => ho)
    · split
      · rfl
      · refine removalLoopD_filter_eq _ _ _ ?_ cur (fun o ho => ho)
        intro r hrm
        exact hr r (List.mem_of_mem_filter hrm)

theorem createDevIter_filter_eq {P : Op → Bool} {cur : List Op} {a : Op}
    (hnd : (cur.map Op.uid).Nodup)
    (h : ∀ o ∈ cur, o.devid = a.devid → P o = false) :
    (createDevIter cur a).filter P = cur.filter P := by
  have hr : ∀ r ∈ findOps cur (some a.devid) none none,
      ∀ o ∈ cur, o.uid = r.uid → P o = false := by
    intro r hrm o ho hou
    obtain ⟨hrc, hrd, -, -⟩ := mem_findOps_facts hrm
    have heq : o = r := List.inj_on_of_nodup_map hnd ho hrc hou
    rw [heq]
    exact h r hrc hrd
  simp only [createDevIter]
  split
  · rfl
  · split
    · rfl
    · exact removalLoopC_filter_eq _ _ _ hr cur (fun o ho => ho)

theorem destroyFmtIter_filter_eq {P : Op → Bool} {cur : List Op} {a : Op}
    (hnd : (cur.map Op.uid).Nodup)
    (h : ∀ o ∈ cur, o.devid = a.devid → o.obj = OpObj.format → P o = false) :
    (destroyFmtIter cur a).filter P = cur.filter P := by
  have hr : ∀ r ∈ findOps cur (some a.devid) none (some OpObj.format),
      ∀ o ∈ cur, o.uid = r.uid → P o = false := by
    intro r hrm o ho hou
    obtain ⟨hrc, hrd, -, hro⟩ := mem_findOps_facts hrm
    have heq : o = r := List.inj_on_of_nodup_map hnd ho hrc hou
    rw [heq]
    exact h r hrc hrd (hro OpObj.format rfl)
  simp only [destroyFmtIter]
  split
  · rfl
  · split
    · rfl
    · exact removalLoopD_filter_eq _ _ _ hr cur (fun o ho => ho)

theorem createFmtIter_filter_eq {P : Op → Bool} {cur : List Op} {a : Op}
    (hnd : (cur.map Op.uid).Nodup)
    (h : ∀ o ∈ cur, o.devid = a.devid → o.obj = OpObj.format → P o = false) :
    (createFmtIter cur a).filter P = cur.filter P := by
  have hr : ∀ r ∈ findOps cur (some a.devid) none (some OpObj.format),
      ∀ o ∈ cur, o.uid = r.uid → P o = false := by
    intro r hrm o ho hou
    obtain ⟨hrc, hrd, -, hro⟩ := mem_findOps_facts hrm
    have heq : o = r := List.inj_on_of_nodup_map hnd ho hrc hou
    rw [heq]
    exact h r hrc hrd (hro OpObj.format rfl)
  simp only [createFmtIter]
  split
  · rfl
  · split
    · rfl
    · exact removalLoopC_filter_eq _ _ _ hr cur (fun o ho => ho)

theorem resizeIter_filter_eq {P : Op → Bool} {ob : OpObj} {t : OpType}
    {cur : List Op} {a : Op}
    (hnd : (cur.map Op.uid).Nodup)
    (h : ∀ o ∈ cur, o.devid = a.devid → o.type = t → o.obj = ob → P o = false) :
    (resizeIter ob t cur a).filter P = cur.filter P := by
  have hr : ∀ r ∈ (findOps cur (some a.devid) (some t) (some ob)).dropLast,
      ∀ o ∈ cur, o.uid = r.uid → P o = false := by
    intro r hrm o ho hou
    obtain ⟨hrc, hrd, hrt, hro⟩ :=
      mem_findOps_facts (List.dropLast_sublist _ |>.subset hrm)
    have heq : o = r := List.inj_on_of_nodup_map hnd ho hrc hou
    rw [heq]
    exact h r hrc hrd (hrt t rfl) (hro ob rfl)
  simp only [resizeIter]
  split
  · rfl
  · split
    · rfl
    · exact foldRemove_filter_eq _ hr cur (fun o ho => ho)

/-! ### A whole pass preserves a filter when each of its snapshot
elements does -/

theorem runPass_filter_eq (iter : List Op → Op → List Op) (P : Op → Bool)
    (hsub : ∀ c a, List.Sublist (iter c a) c) :
    ∀ snapshot : List Op,
      (∀ a ∈ snapshot, ∀ c : List Op, (c.map Op.uid).Nodup →
        (iter c a).filter P = c.filter P) →
      ∀ cur, (cur.map Op.uid).Nodup →
        (runPass iter snapshot cur).filter P = cur.filter P ∧
          List.Sublist (runPass iter snapshot cur) cur := by
  intro snapshot
  induction snapshot with
  | nil => intro _ cur _; exact ⟨rfl, List.Sublist.refl cur⟩
  | cons a rest ih =>
    intro hpres cur hnd
    have h1 : (iter cur a).filter P = cur.filter P := hpres a (by simp) cur hnd
    have hs1 : List.Sublist (iter cur a) cur := hsub cur a
    have hnd1 : ((iter cur a).map Op.uid).Nodup :=
      List.Nodup.sublist (List.Sublist.map Op.uid hs1) hnd
    obtain ⟨h2, hs2⟩ := ih (fun b hb => hpres b (by simp [hb])) (iter cur a) hnd1
    exact ⟨by rw [runPass, List.foldl_cons] at *; rw [h2, h1],
      by rw [runPass, List.foldl_cons]; exact List.Sublist.trans hs2 hs1⟩

/-- The operations registered against the device with id `x`. -/
def devFiber (x : Nat) (o : Op) : Bool := o.devid == x

theorem removalLoopD_cons (s t : Nat) (rem : Op) (rest cur : List Op) :
    removalLoopD s t (rem :: rest) cur =
      (if rem.uid == t
       then (if s ≤ idxOfUid cur rem.uid ∧ idxOfUid cur rem.uid ≤ idxOfUid cur t
             then removeFirstUid cur rem.uid else cur)
       else removalLoopD s t rest
         (if s ≤ idxOfUid cur rem.uid ∧ idxOfUid cur rem.uid ≤ idxOfUid cur t
          then removeFirstUid cur rem.uid else cur)) := rfl

/-- Processing the destroy of a device that was created and then
destroyed inside the log removes both operations: the heart of the
create/destroy collapse. -/
theorem destroyDevIter_collapse {x : Nat} {c d : Op} {L : List Op}
    (hnd : (L.map Op.uid).Nodup)
    (hct : c.type = OpType.create) (hco : c.obj = OpObj.device)
    (hdt : d.type = OpType.destroy) (hdo : d.obj = OpObj.device)
    (hdx : d.devid = x)
    (hfil : L.filter (devFiber x) = [c, d]) :
    (destroyDevIter L d).filter (devFiber x) = [] := by
  obtain ⟨A, L2, hL, hA, hf2⟩ := filter_eq_cons_decomp hfil
  obtain ⟨B, L3, hL2, hB, hf3⟩ := filter_eq_cons_decomp hf2
  have hC : ∀ o ∈ L3, devFiber x o = false := by
    intro o ho
    have := List.filter_eq_nil_iff.mp hf3 o ho
    simpa using this
  subst hL2
  subst hL
  -- uid distinctness facts
  obtain ⟨hcross, hndA, hnd1⟩ := nodup_uid_append_split hnd
  rw [List.map_cons, List.nodup_cons] at hnd1
  obtain ⟨hcNotIn, hnd2⟩ := hnd1
  obtain ⟨hcrossB, hndB, hnd3⟩ := nodup_uid_append_split hnd2
  have hAc : ∀ o ∈ A, o.uid ≠ c.uid := fun o ho => hcross o ho c (by simp)
  have hAd : ∀ o ∈ A, o.uid ≠ d.uid := fun o ho => hcross o ho d (by simp)
  have hBd : ∀ o ∈ B, o.uid ≠ d.uid := fun o ho => hcrossB o ho d (by simp)
  have hcd : c.uid ≠ d.uid := by
    intro h
    exact hcNotIn (by rw [h]; exact List.mem_map_of_mem Op.uid (by simp))
  have hcfib : devFiber x c = true := by
    have : c ∈ (A ++ c :: (B ++ d :: L3)).filter (devFiber x) := by
      rw [hfil]; simp
    exact List.of_mem_filter this
  have hcx : c.devid = x := by simpa [devFiber] using hcfib
  -- the three findOperations results the iteration computes
  have hfilshape : ∀ p : Op → Bool, (∀ o, p o = true → o.devid = x) →
      (A ++ c :: (B ++ d :: L3)).filter p =
        (if p c then [c] else []) ++ (if p d then [d] else []) := by
    intro p himp
    have hnotfib : ∀ o : Op, devFiber x o = false → p o = false := by
      intro o hfo
      cases hpo : p o
      · rfl
      · have hx2 : devFiber x o = true := by simp [devFiber, himp o hpo]
        rw [hfo] at hx2
        exact absurd hx2 (by simp)
    have hAnil : A.filter p = [] :=
      List.filter_eq_nil_iff.mpr (fun o ho => by simp [hnotfib o (hA o ho)])
    have hBnil : B.filter p = [] :=
      List.filter_eq_nil_iff.mpr (fun o ho => by simp [hnotfib o (hB o ho)])
    have hCnil : L3.filter p = [] :=
      List.filter_eq_nil_iff.mpr (fun o ho => by simp [hnotfib o (hC o ho)])
    cases hpc : p c <;> cases hpd : p d <;>
      simp [List.filter_append, List.filter_cons, hAnil, hBnil, hCnil, hpc, hpd]
  have hdest : findOps (A ++ c :: (B ++ d :: L3)) (some d.devid)
      (some OpType.destroy) (some OpObj.device) = [d] := by
    rw [show findOps (A ++ c :: (B ++ d :: L3)) (some d.devid)
        (some OpType.destroy) (some OpObj.device) =
        (A ++ c :: (B ++ d :: L3)).filter
          (fun o => (o.devid == d.devid) && (o.type == OpType.destroy) &&
            (o.obj == OpObj.device)) from rfl]
    rw [hfilshape _ (fun o hp => by
      have := (Bool.and_eq_true_iff.mp (Bool.and_eq_true_iff.mp hp).1).1
      rw [← hdx]; exact beq_iff_eq.mp this)]
    simp [hct, hdt, hdo]
  have hcre : findOps (A ++ c :: (B ++ d :: L3)) (some d.devid)
      (some OpType.create) (some OpObj.device) = [c] := by
    rw [show findOps (A ++ c :: (B ++ d :: L3)) (some d.devid)
        (some OpType.create) (some OpObj.device) =
        (A ++ c :: (B ++ d :: L3)).filter
          (fun o => (o.devid == d.devid) && (o.type == OpType.create) &&
            (o.obj == OpObj.device)) from rfl]
    rw [hfilshape _ (fun o hp => by
      have := (Bool.and_eq_true_iff.mp (Bool.and_eq_true_iff.mp hp).1).1
      rw [← hdx]; exact beq_iff_eq.mp this)]
    simp [hct, hco, hcx, hdx, hdt]
  have hdevops : findOps (A ++ c :: (B ++ d :: L3)) (some d.devid) none none
      = [c, d] := by
    rw [show findOps (A ++ c :: (B ++ d :: L3)) (some d.devid) none none =
        (A ++ c :: (B ++ d :: L3)).filter
          (fun o => (o.devid == d.devid) && true && true) from rfl]
    rw [hfilshape _ (fun o hp => by
      have := (Bool.and_eq_true_iff.mp (Bool.and_eq_true_iff.mp hp).1).1
      rw [← hdx]; exact beq_iff_eq.mp this)]
    simp [hcx, hdx]
  -- index and removal computations
  have hidxc : idxOfUid (A ++ c :: (B ++ d :: L3)) c.uid = A.length := by
    rw [idxOfUid_append_of_not _ hAc, idxOfUid_cons_self]
    omega
  have hidxd : idxOfUid (A ++ c :: (B ++ d :: L3)) d.uid
      = A.length + B.length + 1 := by
    rw [idxOfUid_append_of_not _ hAd,
      idxOfUid_cons_ne _ (fun h => hcd h),
      idxOfUid_append_of_not _ hBd, idxOfUid_cons_self]
    omega
  have hrmc : removeFirstUid (A ++ c :: (B ++ d :: L3)) c.uid
      = A ++ (B ++ d :: L3) := by
    rw [removeFirstUid_append_of_not _ hAc]
    simp [removeFirstUid]
  have hidxd1 : idxOfUid (A ++ (B ++ d :: L3)) d.uid
      = A.length + B.length := by
    rw [idxOfUid_append_of_not _ hAd, idxOfUid_append_of_not _ hBd,
      idxOfUid_cons_self]
    omega
  have hrmd : removeFirstUid (A ++ (B ++ d :: L3)) d.uid
      = A ++ (B ++ L3) := by
    rw [removeFirstUid_append_of_not _ hAd, removeFirstUid_append_of_not _ hBd]
    simp [removeFirstUid]
  have hdmem : d ∈ A ++ c :: (B ++ d :: L3) := by simp
  have hcont : containsUid (A ++ c :: (B ++ d :: L3)) d.uid = true :=
    containsUid_of_mem hdmem
  have hstep : destroyDevIter (A ++ c :: (B ++ d :: L3)) d
      = removalLoopD A.length d.uid [c, d] (A ++ c :: (B ++ d :: L3)) := by
    simp only [destroyDevIter, hcont, hdest, hcre, hdevops, hidxc]
    norm_num
  have hcd2 : (c.uid == d.uid) = false := by simp [hcd]
  have hloop : removalLoopD A.length d.uid [c, d] (A ++ c :: (B ++ d :: L3))
      = A ++ (B ++ L3) := by
    rw [removalLoopD_cons, hcd2]
    simp only [Bool.false_eq_true, if_false]
    rw [hidxc, hidxd, if_pos (by constructor <;> omega), hrmc]
    rw [removalLoopD_cons]
    simp only [beq_self_eq_true, if_true]
    rw [hidxd1, if_pos (by constructor <;> omega), hrmd]
  rw [hstep, hloop]
  have hAnil : A.filter (devFiber x) = [] :=
    List.filter_eq_nil_iff.mpr (fun o ho => by simp [hA o ho])
  have hBnil : B.filter (devFiber x) = [] :=
    List.filter_eq_nil_iff.mpr (fun o ho => by simp [hB o ho])
  have hCnil : L3.filter (devFiber x) = [] :=
    List.filter_eq_nil_iff.mpr (fun o ho => by simp [hC o ho])
  simp [List.filter_append, hAnil, hBnil, hCnil]

/-! ### Iterations for other devices never change the fiber of device x -/

theorem fiber_hyp_of_ne {x : Nat} {cur : List Op} {a : Op} (hax : a.devid ≠ x) :
    ∀ o ∈ cur, o.devid = a.devid → devFiber x o = false := by
  intro o _ hdev
  cases hPo : devFiber x o
  · rfl
  · have hox : o.devid = x := by simpa [devFiber] using hPo
    exact absurd (hdev.symm.trans hox) hax

theorem destroyDevIter_fiber_of_ne {x : Nat} {cur : List Op} {a : Op}
    (hnd : (cur.map Op.uid).Nodup) (hax : a.devid ≠ x) :
    (destroyDevIter cur a).filter (devFiber x) = cur.filter (devFiber x) :=
  destroyDevIter_filter_eq hnd (fiber_hyp_of_ne hax)

theorem createDevIter_fiber_of_ne {x : Nat} {cur : List Op} {a : Op}
    (hnd : (cur.map Op.uid).Nodup) (hax : a.devid ≠ x) :
    (createDevIter cur a).filter (devFiber x) = cur.filter (devFiber x) :=
  createDevIter_filter_eq hnd (fiber_hyp_of_ne hax)

theorem destroyFmtIter_fiber_of_ne {x : Nat} {cur : List Op} {a : Op}
    (hnd : (cur.map Op.uid).Nodup) (hax : a.devid ≠ x) :
    (destroyFmtIter cur a).filter (devFiber x) = cur.filter (devFiber x) :=
  destroyFmtIter_filter_eq hnd (fun o ho hdev _ => fiber_hyp_of_ne hax o ho hdev)

theorem createFmtIter_fiber_of_ne {x : Nat} {cur : List Op} {a : Op}
    (hnd : (cur.map Op.uid).Nodup) (hax : a.devid ≠ x) :
    (createFmtIter cur a).filter (devFiber x) = cur.filter (devFiber x) :=
  createFmtIter_filter_eq hnd (fun o ho hdev _ => fiber_hyp_of_ne hax o ho hdev)

theorem resizeIter_fiber_of_ne {x : Nat} {ob : OpObj} {t : OpType}
    {cur : List Op} {a : Op}
    (hnd : (cur.map Op.uid).Nodup) (hax : a.devid ≠ x) :
    (resizeIter ob t cur a).filter (devFiber x) = cur.filter (devFiber x) :=
  resizeIter_filter_eq hnd (fun o ho hdev _ _ => fiber_hyp_of_ne hax o ho hdev)

/-- A pass whose input log holds no operation on device `x` leaves the
(empty) fiber of `x` empty, for any iteration body that is local to the
processed operation's device. -/
theorem runPass_fiber_empty {x : Nat} {iter : List Op → Op → List Op}
    (hsubI : ∀ c a, List.Sublist (iter c a) c)
    (hloc : ∀ cur a, (cur.map Op.uid).Nodup → a.devid ≠ x →
      (iter cur a).filter (devFiber x) = cur.filter (devFiber x))
    {cur snapshot : List Op} (hnd : (cur.map Op.uid).Nodup)
    (hsnap : snapshot ⊆ cur) (hempty : cur.filter (devFiber x) = []) :
    (runPass iter snapshot cur).filter (devFiber x) = [] ∧
      List.Sublist (runPass iter snapshot cur) cur := by
  have hne : ∀ a ∈ snapshot, a.devid ≠ x := by
    intro a ha hax
    have hmem : a ∈ cur.filter (devFiber x) :=
      List.mem_filter.mpr ⟨hsnap ha, by simp [devFiber, hax]⟩
    rw [hempty] at hmem
    simp at hmem
  obtain ⟨h1, h2⟩ := runPass_filter_eq iter (devFiber x) hsubI snapshot
    (fun a ha cur2 hnd2 => hloc cur2 a hnd2 (hne a ha)) cur hnd
  exact ⟨by rw [h1, hempty], h2⟩

/-! ### The later pruning passes keep an empty device fiber empty -/

theorem createDevPass_fiber_empty {x : Nat} {M : List Op}
    (hnd : (M.map Op.uid).Nodup) (hempty : M.filter (devFiber x) = []) :
    (createDevPass M).filter (devFiber x) = [] ∧
      List.Sublist (createDevPass M) M :=
  runPass_fiber_empty createDevIter_sublist
    (fun cur a hnd2 hax => createDevIter_fiber_of_ne hnd2 hax)
    hnd (List.filter_sublist M).subset hempty

theorem resizeDevPass_fiber_empty {x : Nat} {M : List Op}
    (hnd : (M.map Op.uid).Nodup) (hempty : M.filter (devFiber x) = []) :
    (resizeDevPass M).filter (devFiber x) = [] ∧
      List.Sublist (resizeDevPass M) M :=
  runPass_fiber_empty (resizeIter_sublist OpObj.device OpType.resize)
    (fun cur a hnd2 hax => resizeIter_fiber_of_ne hnd2 hax)
    hnd (List.filter_sublist M).subset hempty

theorem destroyFmtPass_fiber_empty {x : Nat} {M : List Op}
    (hnd : (M.map Op.uid).Nodup) (hempty : M.filter (devFiber x) = []) :
    (destroyFmtPass M).filter (devFiber x) = [] ∧
      List.Sublist (destroyFmtPass M) M :=
  runPass_fiber_empty destroyFmtIter_sublist
    (fun cur a hnd2 hax => destroyFmtIter_fiber_of_ne hnd2 hax)
    hnd (List.filter_sublist M).subset hempty

theorem createFmtPass_fiber_empty {x : Nat} {M : List Op}
    (hnd : (M.map Op.uid).Nodup) (hempty : M.filter (devFiber x) = []) :
    (createFmtPass M).filter (devFiber x) = [] ∧
      List.Sublist (createFmtPass M) M :=
  runPass_fiber_empty createFmtIter_sublist
    (fun cur a hnd2 hax => createFmtIter_fiber_of_ne hnd2 hax)
    hnd (List.filter_sublist M).subset hempty

theorem resizeFmtPass_fiber_empty {x : Nat} {M : List Op}
    (hnd : (M.map Op.uid).Nodup) (hempty : M.filter (devFiber x) = []) :
    (resizeFmtPass M).filter (devFiber x) = [] ∧
      List.Sublist (resizeFmtPass M) M :=
  runPass_fiber_empty (resizeIter_sublist OpObj.format OpType.resize)
    (fun cur a hnd2 hax => resizeIter_fiber_of_ne hnd2 hax)
    hnd (List.filter_sublist M).subset hempty

theorem migrateFmtPass_fiber_empty {x : Nat} {M : List Op}
    (hnd : (M.map Op.uid).Nodup) (hempty : M.filter (devFiber x) = []) :
    (migrateFmtPass M).filter (devFiber x) = [] ∧
      List.Sublist (migrateFmtPass M) M :=
  runPass_fiber_empty (resizeIter_sublist OpObj.format OpType.migrate)
    (fun cur a hnd2 hax => resizeIter_fiber_of_ne hnd2 hax)
    hnd (List.filter_sublist M).subset hempty

theorem nodup_of_sublist {M L : List Op} (hs : List.Sublist M L)
    (hnd : (L.map Op.uid).Nodup) : (M.map Op.uid).Nodup :=
  List.Nodup.sublist (List.Sublist.map Op.uid hs) hnd

/-- The destroy pass on a log whose fiber of device `x` is exactly a
create followed by a destroy removes that whole fiber. -/
theorem destroyDevPass_collapse {x : Nat} {c d : Op} {L : List Op}
    (hnd : (L.map Op.uid).Nodup)
    (hct : c.type = OpType.create) (hco : c.obj = OpObj.device)
    (hdt : d.type = OpType.destroy) (hdo : d.obj = OpObj.device)
    (hdx : d.devid = x)
    (hfil : L.filter (devFiber x) = [c, d]) :
    (destroyDevPass L).filter (devFiber x) = [] ∧
      List.Sublist (destroyDevPass L) L := by
  have hsnapfib : (findOps L none (some OpType.destroy)
      (some OpObj.device)).filter (devFiber x) = [d] := by
    rw [show findOps L none (some OpType.destroy) (some OpObj.device) =
      L.filter (fun o => true && (o.type == OpType.destroy) &&
        (o.obj == OpObj.device)) from rfl]
    rw [List.filter_comm, hfil]
    simp [List.filter_cons, hct, hdt, hdo]
  obtain ⟨S1, S2x, hsnapeq, hS1, hfS2⟩ := filter_eq_cons_decomp hsnapfib
  have hS2 : ∀ o ∈ S2x, devFiber x o = false := fun o ho => by
    have := List.filter_eq_nil_iff.mp hfS2 o ho
    simpa using this
  have hne1 : ∀ a ∈ S1, a.devid ≠ x := by
    intro a ha hax
    have : devFiber x a = true := by simp [devFiber, hax]
    rw [hS1 a ha] at this
    exact absurd this (by simp)
  have hne2 : ∀ a ∈ S2x, a.devid ≠ x := by
    intro a ha hax
    have : devFiber x a = true := by simp [devFiber, hax]
    rw [hS2 a ha] at this
    exact absurd this (by simp)
  obtain ⟨hf1, hsub1⟩ := runPass_filter_eq destroyDevIter (devFiber x)
    destroyDevIter_sublist S1
    (fun a ha cur2 hnd2 => destroyDevIter_fiber_of_ne hnd2 (hne1 a ha)) L hnd
  have hndM1 := nodup_of_sublist hsub1 hnd
  have hfM1 : (runPass destroyDevIter S1 L).filter (devFiber x) = [c, d] := by
    rw [hf1, hfil]
  have hcoll : (destroyDevIter (runPass destroyDevIter S1 L) d).filter
      (devFiber x) = [] :=
    destroyDevIter_collapse hndM1 hct hco hdt hdo hdx hfM1
  have hsub2 := destroyDevIter_sublist (runPass destroyDevIter S1 L) d
  have hndM2 := nodup_of_sublist hsub2 hndM1
  obtain ⟨hf3, hsub3⟩ := runPass_filter_eq destroyDevIter (devFiber x)
    destroyDevIter_sublist S2x
    (fun a ha cur2 hnd2 => destroyDevIter_fiber_of_ne hnd2 (hne2 a ha))
    (destroyDevIter (runPass destroyDevIter S1 L) d) hndM2
  have hpasseq : destroyDevPass L = runPass destroyDevIter S2x
      (destroyDevIter (runPass destroyDevIter S1 L) d) := by
    rw [destroyDevPass, hsnapeq]
    simp [runPass, List.foldl_append]
  constructor
  · rw [hpasseq, hf3, hcoll]
  · rw [hpasseq]
    exact ((hsub3.trans hsub2).trans hsub1)

/-- C4: if the only operations registered against the (not preexisting)
device `x` are a create followed by a destroy, pruning removes every
operation touching `x`. -/
theorem c4_create_destroy_collapse {x : Nat} {c d : Op} {L : List Op}
    (hnd : (L.map Op.uid).Nodup)
    (hct : c.type = OpType.create) (hco : c.obj = OpObj.device)
    (hdt : d.type = OpType.destroy) (hdo : d.obj = OpObj.device)
    (hdx : d.devid = x)
    (hfil : L.filter (devFiber x) = [c, d]) :
    (pruneOperations L).filter (devFiber x) = [] := by
  obtain ⟨h1, s1⟩ := destroyDevPass_collapse hnd hct hco hdt hdo hdx hfil
  have n1 := nodup_of_sublist s1 hnd
  obtain ⟨h2, s2⟩ := createDevPass_fiber_empty n1 h1
  have n2 := nodup_of_sublist s2 n1
  obtain ⟨h3, s3⟩ := resizeDevPass_fiber_empty n2 h2
  have n3 := nodup_of_sublist s3 n2
  obtain ⟨h4, s4⟩ := destroyFmtPass_fiber_empty n3 h3
  have n4 := nodup_of_sublist s4 n3
  obtain ⟨h5, s5⟩ := createFmtPass_fiber_empty n4 h4
  have n5 := nodup_of_sublist s5 n4
  obtain ⟨h6, s6⟩ := resizeFmtPass_fiber_empty n5 h5
  have n6 := nodup_of_sublist s6 n5
  obtain ⟨h7, _⟩ := migrateFmtPass_fiber_empty n6 h6
  exact h7

/-- Witness for C4 at a concrete log: create then destroy of device 7. -/
theorem c4_create_destroy_collapse_witness :
    (pruneOperations [⟨1, OpType.create, OpObj.device, 7, 0⟩,
      ⟨2, OpType.destroy, OpObj.device, 7, 0⟩]).filter (devFiber 7) = [] :=
  @c4_create_destroy_collapse 7
    ⟨1, OpType.create, OpObj.device, 7, 0⟩
    ⟨2, OpType.destroy, OpObj.device, 7, 0⟩
    [⟨1, OpType.create, OpObj.device, 7, 0⟩,
      ⟨2, OpType.destroy, OpObj.device, 7, 0⟩]
    (by decide) rfl rfl rfl rfl rfl (by decide)

/-! ### The resize/migrate family on one target -/

/-- The operations of family `(t, ob)` registered against device `x`
(the loops the resize/migrate passes collapse). -/
def famOn (x : Nat) (ob : OpObj) (t : OpType) (o : Op) : Bool :=
  (o.devid == x) && (o.type == t) && (o.obj == ob)

theorem fam_hyp_of_ne {x : Nat} {ob : OpObj} {t : OpType} {cur : List Op}
    {a : Op} (hax : a.devid ≠ x) :
    ∀ o ∈ cur, o.devid = a.devid → famOn x ob t o = false := by
  intro o _ hdev
  cases hf : famOn x ob t o
  · rfl
  · have hx : o.devid = x := by
      have := hf
      simp [famOn] at this
      exact this.1.1
    exact absurd (hdev.symm.trans hx) hax

/-- Processing the first of at least two family operations on device `x`
keeps exactly the last one. -/
theorem resizeIter_collapse {x : Nat} {ob : OpObj} {t : OpType}
    {cur : List Op} {r1 rlast : Op} {rest : List Op}
    (hnd : (cur.map Op.uid).Nodup)
    (hfil : cur.filter (famOn x ob t) = r1 :: rest)
    (hrest : rest ≠ [])
    (hlast : (r1 :: rest).getLast? = some rlast) :
    (resizeIter ob t cur r1).filter (famOn x ob t) = [rlast] := by
  have hr1fil : r1 ∈ cur.filter (famOn x ob t) := by rw [hfil]; simp
  have hr1mem : r1 ∈ cur := List.mem_of_mem_filter hr1fil
  have hfam : famOn x ob t r1 = true := List.of_mem_filter hr1fil
  have hx1 : r1.devid = x := by
    have := hfam
    simp [famOn] at this
    exact this.1.1
  have hloops : findOps cur (some r1.devid) (some t) (some ob)
      = r1 :: rest := by
    rw [show findOps cur (some r1.devid) (some t) (some ob) =
      cur.filter (fun o => (o.devid == r1.devid) && (o.type == t) &&
        (o.obj == ob)) from rfl, hx1]
    exact hfil
  have hcont : containsUid cur r1.uid = true := containsUid_of_mem hr1mem
  have hlen : ((r1 :: rest).length == 1) = false := by
    cases rest with
    | nil => exact absurd rfl hrest
    | cons b bs => simp
  have hstep : resizeIter ob t cur r1 =
      (r1 :: rest).dropLast.foldl (fun c r => removeFirstUid c r.uid) cur := by
    simp only [resizeIter, hcont, not_true_eq_false, Bool.false_eq_true,
      if_false, hloops, hlen]
  rw [hstep, foldRemove_filter_comm _ cur hnd, hfil]
  exact foldRemove_dropLast
    (nodup_of_sublist (by rw [← hfil]; exact List.filter_sublist cur) hnd) hlast

/-- Once the family on `x` is down to its last operation, any further
family iteration for an operation of that family is a no-op. -/
theorem resizeIter_after {x : Nat} {ob : OpObj} {t : OpType}
    {cur cur3 : List Op} {a rlast : Op}
    (hndcur : (cur.map Op.uid).Nodup)
    (hsub : List.Sublist cur3 cur)
    (ha : a ∈ cur) (hfam : famOn x ob t a = true)
    (hone : cur3.filter (famOn x ob t) = [rlast]) :
    resizeIter ob t cur3 a = cur3 := by
  have hax : a.devid = x := by
    have := hfam
    simp [famOn] at this
    exact this.1.1
  by_cases hc : containsUid cur3 a.uid = true
  · have hmem : a ∈ cur3 := by
      simp only [containsUid, List.any_eq_true] at hc
      obtain ⟨o, ho, hu⟩ := hc
      have heq : o = a := List.inj_on_of_nodup_map hndcur (hsub.subset ho) ha
        (by simpa using hu)
      rw [← heq]
      exact ho
    have hin : a ∈ cur3.filter (famOn x ob t) := List.mem_filter.mpr ⟨hmem, hfam⟩
    rw [hone] at hin
    have haeq : a = rlast := by simpa using hin
    have hloops : findOps cur3 (some a.devid) (some t) (some ob) = [rlast] := by
      rw [show findOps cur3 (some a.devid) (some t) (some ob) =
        cur3.filter (fun o => (o.devid == a.devid) && (o.type == t) &&
          (o.obj == ob)) from rfl, hax]
      exact hone
    simp only [resizeIter, hc, not_true_eq_false, Bool.false_eq_true,
      if_false, hloops, List.length_singleton]
    norm_num
  · simp only [resizeIter]
    rw [if_pos hc]

theorem resizeIter_fam_of_ne {x : Nat} {ob obI : OpObj} {t tI : OpType}
    {cur : List Op} {a : Op}
    (hnd : (cur.map Op.uid).Nodup) (hax : a.devid ≠ x) :
    (resizeIter obI tI cur a).filter (famOn x ob t) = cur.filter (famOn x ob t) :=
  resizeIter_filter_eq hnd (fun o ho hdev _ _ => fam_hyp_of_ne hax o ho hdev)

/-- A resize/migrate pass collapses the whole family on target `x` to
its last member whenever at least two are present. -/
theorem resizePass_collapse {x : Nat} {ob : OpObj} {t : OpType}
    {cur rs : List Op} {rlast : Op}
    (hnd : (cur.map Op.uid).Nodup)
    (hrs : cur.filter (famOn x ob t) = rs)
    (hlen : 2 ≤ rs.length)
    (hlast : rs.getLast? = some rlast) :
    (runPass (resizeIter ob t) (findOps cur none (some t) (some ob))
      cur).filter (famOn x ob t) = [rlast] ∧
    List.Sublist
      (runPass (resizeIter ob t) (findOps cur none (some t) (some ob)) cur)
      cur := by
  have hsnapq : findOps cur none (some t) (some ob) =
      cur.filter (fun o => true && (o.type == t) && (o.obj == ob)) := rfl
  have hmemq : ∀ a ∈ findOps cur none (some t) (some ob),
      a ∈ cur ∧ a.type = t ∧ a.obj = ob := by
    intro a ha
    rw [hsnapq] at ha
    refine ⟨List.mem_of_mem_filter ha, ?_, ?_⟩
    · have := List.of_mem_filter ha
      simp at this
      exact this.1
    · have := List.of_mem_filter ha
      simp at this
      exact this.2
  have hsnapfib : (findOps cur none (some t) (some ob)).filter
      (famOn x ob t) = rs := by
    rw [hsnapq, List.filter_comm, hrs, List.filter_eq_self]
    intro a ha
    have : a ∈ cur.filter (famOn x ob t) := by rw [hrs]; exact ha
    have hf := List.of_mem_filter this
    simp [famOn] at hf
    simp [hf.1.2, hf.2]
  cases rs with
  | nil => simp at hlen
  | cons r1 rest =>
  have hrest : rest ≠ [] := by
    intro h
    rw [h] at hlen
    simp at hlen
  obtain ⟨S1, S2x, hsnapeq, hS1, hfS2⟩ := filter_eq_cons_decomp hsnapfib
  have hne1 : ∀ a ∈ S1, a.devid ≠ x := by
    intro a ha hax
    have haq : a ∈ findOps cur none (some t) (some ob) := by
      rw [hsnapeq]
      exact List.mem_append_left _ ha
    obtain ⟨-, hat, hao⟩ := hmemq a haq
    have : famOn x ob t a = true := by simp [famOn, hax, hat, hao]
    rw [hS1 a ha] at this
    exact absurd this (by simp)
  obtain ⟨hf1, hsub1⟩ := runPass_filter_eq (resizeIter ob t) (famOn x ob t)
    (resizeIter_sublist ob t) S1
    (fun a ha cur2 hnd2 => resizeIter_fam_of_ne hnd2 (hne1 a ha)) cur hnd
  have hndM1 := nodup_of_sublist hsub1 hnd
  have hfM1 : (runPass (resizeIter ob t) S1 cur).filter (famOn x ob t)
      = r1 :: rest := by rw [hf1, hrs]
  have hcoll : (resizeIter ob t (runPass (resizeIter ob t) S1 cur)
      r1).filter (famOn x ob t) = [rlast] :=
    resizeIter_collapse hndM1 hfM1 hrest hlast
  have hsub2 := resizeIter_sublist ob t (runPass (resizeIter ob t) S1 cur) r1
  -- the tail of the snapshot leaves the collapsed family alone
  have hS2fold : ∀ S : List Op,
      (∀ a ∈ S, a ∈ cur ∧ (famOn x ob t a = true ∨ a.devid ≠ x)) →
      ∀ M, List.Sublist M cur → M.filter (famOn x ob t) = [rlast] →
      (runPass (resizeIter ob t) S M).filter (famOn x ob t) = [rlast] ∧
        List.Sublist (runPass (resizeIter ob t) S M) M := by
    intro S
    induction S with
    | nil => intro _ M _ h1; exact ⟨h1, List.Sublist.refl M⟩
    | cons a S ih =>
      intro hS M hsubM hfM
      have hndM := nodup_of_sublist hsubM hnd
      obtain ⟨hacur, hcase⟩ := hS a (by simp)
      have hstep : (resizeIter ob t M a).filter (famOn x ob t) = [rlast] ∧
          List.Sublist (resizeIter ob t M a) M := by
        rcases hcase with hfam | hax
        · rw [resizeIter_after hnd hsubM hacur hfam hfM]
          exact ⟨hfM, List.Sublist.refl M⟩
        · exact ⟨by rw [resizeIter_fam_of_ne hndM hax, hfM],
            resizeIter_sublist ob t M a⟩
      obtain ⟨h1, hs1⟩ := hstep
      obtain ⟨h2, hs2⟩ := ih (fun b hb => hS b (by simp [hb]))
        (resizeIter ob t M a) (hs1.trans hsubM) h1
      rw [runPass, List.foldl_cons]
      exact ⟨h2, hs2.trans hs1⟩
  have hS2props : ∀ a ∈ S2x, a ∈ cur ∧ (famOn x ob t a = true ∨ a.devid ≠ x) := by
    intro a ha
    have haq : a ∈ findOps cur none (some t) (some ob) := by
      rw [hsnapeq]
      exact List.mem_append_right _ (List.mem_cons_of_mem _ ha)
    obtain ⟨hac, hat, hao⟩ := hmemq a haq
    refine ⟨hac, ?_⟩
    cases hf : famOn x ob t a
    · right
      intro hax
      have : famOn x ob t a = true := by simp [famOn, hax, hat, hao]
      rw [hf] at this
      exact absurd this (by simp)
    · left; rfl
  obtain ⟨h3, hsub3⟩ := hS2fold S2x hS2props
    (resizeIter ob t (runPass (resizeIter ob t) S1 cur) r1)
    (hsub2.trans hsub1) hcoll
  have hpasseq : runPass (resizeIter ob t)
      (findOps cur none (some t) (some ob)) cur =
      runPass (resizeIter ob t) S2x
        (resizeIter ob t (runPass (resizeIter ob t) S1 cur) r1) := by
    rw [hsnapeq]
    simp [runPass, List.foldl_append]
  rw [hpasseq]
  exact ⟨h3, (hsub3.trans hsub2).trans hsub1⟩

/-! ### Passes that cannot touch the family on target x -/

theorem mem_findOps_none_facts {cur : List Op} {a : Op} {t : OpType}
    {ob : OpObj} (ha : a ∈ findOps cur none (some t) (some ob)) :
    a ∈ cur ∧ a.type = t ∧ a.obj = ob := by
  have hac : a ∈ cur := List.mem_of_mem_filter ha
  have hp := List.of_mem_filter ha
  simp at hp
  exact ⟨hac, hp.1, hp.2⟩

theorem destroyDevPass_fam_preserve {x : Nat} {ob : OpObj} {t : OpType}
    {M : List Op} (hnd : (M.map Op.uid).Nodup)
    (hno : ∀ o ∈ M, o.devid = x → o.type ≠ OpType.destroy) :
    (destroyDevPass M).filter (famOn x ob t) = M.filter (famOn x ob t) ∧
      List.Sublist (destroyDevPass M) M := by
  refine runPass_filter_eq destroyDevIter (famOn x ob t)
    destroyDevIter_sublist _ ?_ M hnd
  intro a ha cur2 hnd2
  obtain ⟨hac, hat, -⟩ := mem_findOps_none_facts ha
  exact destroyDevIter_filter_eq hnd2
    (fam_hyp_of_ne (fun hax => hno a hac hax hat))

theorem createDevPass_fam_preserve {x : Nat} {ob : OpObj} {t : OpType}
    {M : List Op} (hnd : (M.map Op.uid).Nodup)
    (hno : ∀ o ∈ M, o.devid = x → o.type ≠ OpType.create) :
    (createDevPass M).filter (famOn x ob t) = M.filter (famOn x ob t) ∧
      List.Sublist (createDevPass M) M := by
  refine runPass_filter_eq createDevIter (famOn x ob t)
    createDevIter_sublist _ ?_ M hnd
  intro a ha cur2 hnd2
  obtain ⟨hac, hat, -⟩ := mem_findOps_none_facts ha
  exact createDevIter_filter_eq hnd2
    (fam_hyp_of_ne (fun hax => hno a hac hax hat))

theorem destroyFmtPass_fam_preserve {x : Nat} {ob : OpObj} {t : OpType}
    {M : List Op} (hnd : (M.map Op.uid).Nodup)
    (hno : ∀ o ∈ M, o.devid = x → o.type ≠ OpType.destroy) :
    (destroyFmtPass M).filter (famOn x ob t) = M.filter (famOn x ob t) ∧
      List.Sublist (destroyFmtPass M) M := by
  refine runPass_filter_eq destroyFmtIter (famOn x ob t)
    destroyFmtIter_sublist _ ?_ M hnd
  intro a ha cur2 hnd2
  obtain ⟨hac, hat, -⟩ := mem_findOps_none_facts ha
  exact destroyFmtIter_filter_eq hnd2
    (fun o ho hdev _ => fam_hyp_of_ne (fun hax => hno a hac hax hat) o ho hdev)

theorem createFmtPass_fam_preserve {x : Nat} {ob : OpObj} {t : OpType}
    {M : List Op} (hnd : (M.map Op.uid).Nodup)
    (hno : ∀ o ∈ M, o.devid = x → o.type ≠ OpType.create) :
    (createFmtPass M).filter (famOn x ob t) = M.filter (famOn x ob t) ∧
      List.Sublist (createFmtPass M) M := by
  refine runPass_filter_eq createFmtIter (famOn x ob t)
    createFmtIter_sublist _ ?_ M hnd
  intro a ha cur2 hnd2
  obtain ⟨hac, hat, -⟩ := mem_findOps_none_facts ha
  exact createFmtIter_filter_eq hnd2
    (fun o ho hdev _ => fam_hyp_of_ne (fun hax => hno a hac hax hat) o ho hdev)

/-- A resize/migrate pass of a different family `(tI, obI)` never
touches the family `(t, ob)` on any target. -/
theorem resizeOtherPass_fam_preserve {x : Nat} {ob obI : OpObj}
    {t tI : OpType} {M : List Op} (hnd : (M.map Op.uid).Nodup)
    (hdiff : ob ≠ obI ∨ t ≠ tI) :
    (runPass (resizeIter obI tI) (findOps M none (some tI) (some obI))
      M).filter (famOn x ob t) = M.filter (famOn x ob t) ∧
    List.Sublist
      (runPass (resizeIter obI tI) (findOps M none (some tI) (some obI)) M)
      M := by
  refine runPass_filter_eq (resizeIter obI tI) (famOn x ob t)
    (resizeIter_sublist obI tI) _ ?_ M hnd
  intro a _ cur2 hnd2
  refine resizeIter_filter_eq hnd2 ?_
  intro o _ _ hot hoo
  cases hf : famOn x ob t o
  · rfl
  · have hparts : o.devid = x ∧ o.type = t ∧ o.obj = ob := by
      have := hf
      simp [famOn] at this
      exact ⟨this.1.1, this.1.2, this.2⟩
    rcases hdiff with h | h
    · exact absurd (hparts.2.2.symm.trans hoo) h
    · exact absurd (hparts.2.1.symm.trans hot) h

/-- Amended C5: when no create or destroy operations are registered on
target device `x`, pruning keeps exactly the last resize of the family
`(resize, ob)` on `x` whenever at least two were registered. -/
theorem c5_resize_keep_last {x : Nat} {ob : OpObj} {L rs : List Op}
    {rlast : Op}
    (hnd : (L.map Op.uid).Nodup)
    (hlife : ∀ o ∈ L, o.devid = x →
      o.type ≠ OpType.create ∧ o.type ≠ OpType.destroy)
    (hrs : L.filter (famOn x ob OpType.resize) = rs)
    (hlen : 2 ≤ rs.length) (hlast : rs.getLast? = some rlast) :
    (pruneOperations L).filter (famOn x ob OpType.resize) = [rlast] := by
  obtain ⟨h1, s1⟩ := @destroyDevPass_fam_preserve x ob OpType.resize L hnd
    (fun o ho hox => (hlife o ho hox).2)
  have n1 := nodup_of_sublist s1 hnd
  obtain ⟨h2, s2⟩ := @createDevPass_fam_preserve x ob OpType.resize _ n1
    (fun o ho hox => (hlife o (s1.subset ho) hox).1)
  have n2 := nodup_of_sublist s2 n1
  have hf2 : (createDevPass (destroyDevPass L)).filter
      (famOn x ob OpType.resize) = rs := by rw [h2, h1, hrs]
  cases ob with
  | device =>
    obtain ⟨h3, s3⟩ := @resizePass_collapse x OpObj.device OpType.resize _
      rs rlast n2 hf2 hlen hlast
    have h3b : (resizeDevPass (createDevPass (destroyDevPass L))).filter
        (famOn x OpObj.device OpType.resize) = [rlast] := h3
    have s3b : List.Sublist
        (resizeDevPass (createDevPass (destroyDevPass L)))
        (createDevPass (destroyDevPass L)) := s3
    have n3 := nodup_of_sublist s3b n2
    obtain ⟨h4, s4⟩ := @destroyFmtPass_fam_preserve x OpObj.device
      OpType.resize _ n3
      (fun o ho hox =>
        (hlife o (s1.subset (s2.subset (s3b.subset ho))) hox).2)
    have n4 := nodup_of_sublist s4 n3
    obtain ⟨h5, s5⟩ := @createFmtPass_fam_preserve x OpObj.device
      OpType.resize _ n4
      (fun o ho hox =>
        (hlife o (s1.subset (s2.subset (s3b.subset (s4.subset ho)))) hox).1)
    have n5 := nodup_of_sublist s5 n4
    obtain ⟨h6, s6⟩ := @resizeOtherPass_fam_preserve x OpObj.device
      OpObj.format OpType.resize OpType.resize _ n5 (Or.inl (by simp))
    have h6b : (resizeFmtPass (createFmtPass (destroyFmtPass
        (resizeDevPass (createDevPass (destroyDevPass L)))))).filter
        (famOn x OpObj.device OpType.resize) =
        (createFmtPass (destroyFmtPass (resizeDevPass (createDevPass
          (destroyDevPass L))))).filter
          (famOn x OpObj.device OpType.resize) := h6
    have s6b : List.Sublist
        (resizeFmtPass (createFmtPass (destroyFmtPass (resizeDevPass
          (createDevPass (destroyDevPass L))))))
        (createFmtPass (destroyFmtPass (resizeDevPass (createDevPass
          (destroyDevPass L))))) := s6
    have n6 := nodup_of_sublist s6b n5
    obtain ⟨h7, s7⟩ := @resizeOtherPass_fam_preserve x OpObj.device
      OpObj.format OpType.resize OpType.migrate _ n6 (Or.inr (by simp))
    have h7b : (migrateFmtPass (resizeFmtPass (createFmtPass
        (destroyFmtPass (resizeDevPass (createDevPass
          (destroyDevPass L))))))).filter
        (famOn x OpObj.device OpType.resize) =
        (resizeFmtPass (createFmtPass (destroyFmtPass (resizeDevPass
          (createDevPass (destroyDevPass L)))))).filter
          (famOn x OpObj.device OpType.resize) := h7
    show (migrateFmtPass (resizeFmtPass (createFmtPass (destroyFmtPass
      (resizeDevPass (createDevPass (destroyDevPass L))))))).filter
      (famOn x OpObj.device OpType.resize) = [rlast]
    rw [h7b, h6b, h5, h4, h3b]
  | format =>
    obtain ⟨h3, s3⟩ := @resizeOtherPass_fam_preserve x OpObj.format
      OpObj.device OpType.resize OpType.resize _ n2 (Or.inl (by simp))
    have h3b : (resizeDevPass (createDevPass (destroyDevPass L))).filter
        (famOn x OpObj.format OpType.resize) =
        (createDevPass (destroyDevPass L)).filter
          (famOn x OpObj.format OpType.resize) := h3
    have s3b : List.Sublist
        (resizeDevPass (createDevPass (destroyDevPass L)))
        (createDevPass (destroyDevPass L)) := s3
    have n3 := nodup_of_sublist s3b n2
    obtain ⟨h4, s4⟩ := @destroyFmtPass_fam_preserve x OpObj.format
      OpType.resize _ n3
      (fun o ho hox =>
        (hlife o (s1.subset (s2.subset (s3b.subset ho))) hox).2)
    have n4 := nodup_of_sublist s4 n3
    obtain ⟨h5, s5⟩ := @createFmtPass_fam_preserve x OpObj.format
      OpType.resize _ n4
      (fun o ho hox =>
        (hlife o (s1.subset (s2.subset (s3b.subset (s4.subset ho)))) hox).1)
    have n5 := nodup_of_sublist s5 n4
    have hf5 : (createFmtPass (destroyFmtPass (resizeDevPass (createDevPass
        (destroyDevPass L))))).filter (famOn x OpObj.format OpType.resize)
        = rs := by rw [h5, h4, h3b, hf2]
    obtain ⟨h6, s6⟩ := @resizePass_collapse x OpObj.format OpType.resize _
      rs rlast n5 hf5 hlen hlast
    have h6b : (resizeFmtPass (createFmtPass (destroyFmtPass
        (resizeDevPass (createDevPass (destroyDevPass L)))))).filter
        (famOn x OpObj.format OpType.resize) = [rlast] := h6
    have s6b : List.Sublist
        (resizeFmtPass (createFmtPass (destroyFmtPass (resizeDevPass
          (createDevPass (destroyDevPass L))))))
        (createFmtPass (destroyFmtPass (resizeDevPass (createDevPass
          (destroyDevPass L))))) := s6
    have n6 := nodup_of_sublist s6b n5
    obtain ⟨h7, s7⟩ := @resizeOtherPass_fam_preserve x OpObj.format
      OpObj.format OpType.resize OpType.migrate _ n6 (Or.inr (by simp))
    have h7b : (migrateFmtPass (resizeFmtPass (createFmtPass
        (destroyFmtPass (resizeDevPass (createDevPass
          (destroyDevPass L))))))).filter
        (famOn x OpObj.format OpType.resize) =
        (resizeFmtPass (createFmtPass (destroyFmtPass (resizeDevPass
          (createDevPass (destroyDevPass L)))))).filter
          (famOn x OpObj.format OpType.resize) := h7
    show (migrateFmtPass (resizeFmtPass (createFmtPass (destroyFmtPass
      (resizeDevPass (createDevPass (destroyDevPass L))))))).filter
      (famOn x OpObj.format OpType.resize) = [rlast]
    rw [h7b, h6b]

/-- A registrable log on preexisting device 7: resize, destroy,
re-create, destroy again.  Two resize operations are registered and the
first, not the last, survives pruning. -/
def resizeDestroyLog : List Op :=
  [⟨1, OpType.resize, OpObj.device, 7, 5⟩,
   ⟨2, OpType.destroy, OpObj.device, 7, 0⟩,
   ⟨3, OpType.create, OpObj.device, 7, 0⟩,
   ⟨4, OpType.resize, OpObj.device, 7, 8⟩,
   ⟨5, OpType.destroy, OpObj.device, 7, 0⟩]

/-- Counterexample to C5 as stated: on `resizeDestroyLog` device 7 has
two resize operations (sizes 5 and 8); after pruning the surviving
resize is the **first** one (size 5), not the last (size 8), because the
destroy pass removed everything from after the first destroy through the
last destroy. -/
theorem c5_resize_lastwrite_counterexample :
    (pruneOperations resizeDestroyLog).filter
        (famOn 7 OpObj.device OpType.resize) =
      [⟨1, OpType.resize, OpObj.device, 7, 5⟩] ∧
    (pruneOperations resizeDestroyLog).filter
        (famOn 7 OpObj.device OpType.resize) ≠
      [⟨4, OpType.resize, OpObj.device, 7, 8⟩] := by
  decide

/-- Witness for the amended C5 at the spec's scenario: resizes to 5GB,
8GB and 6GB on the same preexisting device leave only the resize to
6GB. -/
theorem c5_resize_keep_last_witness :
    (pruneOperations [⟨1, OpType.resize, OpObj.device, 7, 5⟩,
      ⟨2, OpType.resize, OpObj.device, 7, 8⟩,
      ⟨3, OpType.resize, OpObj.device, 7, 6⟩]).filter
      (famOn 7 OpObj.device OpType.resize) =
      [⟨3, OpType.resize, OpObj.device, 7, 6⟩] :=
  @c5_resize_keep_last 7 OpObj.device
    [⟨1, OpType.resize, OpObj.device, 7, 5⟩,
     ⟨2, OpType.resize, OpObj.device, 7, 8⟩,
     ⟨3, OpType.resize, OpObj.device, 7, 6⟩]
    [⟨1, OpType.resize, OpObj.device, 7, 5⟩,
     ⟨2, OpType.resize, OpObj.device, 7, 8⟩,
     ⟨3, OpType.resize, OpObj.device, 7, 6⟩]
    ⟨3, OpType.resize, OpObj.device, 7, 6⟩
    (by decide) (by decide) (by decide) (by decide) (by decide)

/-- A registrable log on preexisting device 7 refuting idempotence of
pruning: resize, destroy, re-create, destroy again (without the second
resize of `resizeDestroyLog`). -/
def rdcdLog : List Op :=
  [⟨1, OpType.resize, OpObj.device, 7, 5⟩,
   ⟨2, OpType.destroy, OpObj.device, 7, 0⟩,
   ⟨3, OpType.create, OpObj.device, 7, 0⟩,
   ⟨4, OpType.destroy, OpObj.device, 7, 0⟩]

/-- Counterexample to C8: pruning `rdcdLog` twice removes strictly more
than pruning it once. -/
theorem c8_prune_not_idempotent :
    pruneOperations (pruneOperations rdcdLog) ≠ pruneOperations rdcdLog := by
  decide

/-- Amended C8: pruning is not idempotent.  On `rdcdLog` the first pass
keeps the resize that precedes the first destroy (the multi-destroy
branch only removes from just after the processed destroy), while the
second pass, now seeing a single destroy with a preceding resize, also
drops that resize. -/
theorem c8_prune_second_pass :
    pruneOperations rdcdLog =
      [⟨1, OpType.resize, OpObj.device, 7, 5⟩,
       ⟨2, OpType.destroy, OpObj.device, 7, 0⟩] ∧
    pruneOperations (pruneOperations rdcdLog) =
      [⟨2, OpType.destroy, OpObj.device, 7, 0⟩] := by
  decide

/-! ### The Ordering Engine: `cmpOperations` (`devicetree.py` 234-374) -/

/-- A device as the comparator sees it.  `diskId` stands for the
identity of `device.disk` (partitions), `partNum` for
`device.partedPartition.number`; `parents` carries the owning devices
for the dependency relation. -/
inductive CDev where
  | node (devid : Nat) (path : String) (name : String)
      (isPartition : Bool) (partitioned : Bool)
      (isExtended : Bool) (isLogical : Bool)
      (diskId : Nat) (partNum : Int) (parents : List CDev)

def CDev.devid : CDev → Nat
  | CDev.node i _ _ _ _ _ _ _ _ _ => i

def CDev.path : CDev → String
  | CDev.node _ p _ _ _ _ _ _ _ _ => p

def CDev.name : CDev → String
  | CDev.node _ _ n _ _ _ _ _ _ _ => n

def CDev.isPartition : CDev → Bool
  | CDev.node _ _ _ b _ _ _ _ _ _ => b

def CDev.partitioned : CDev → Bool
  | CDev.node _ _ _ _ b _ _ _ _ _ => b

def CDev.isExtended : CDev → Bool
  | CDev.node _ _ _ _ _ b _ _ _ _ => b

def CDev.isLogical : CDev → Bool
  | CDev.node _ _ _ _ _ _ b _ _ _ => b

def CDev.diskId : CDev → Nat
  | CDev.node _ _ _ _ _ _ _ d _ _ => d

def CDev.partNum : CDev → Int
  | CDev.node _ _ _ _ _ _ _ _ n _ => n

def CDev.parents : CDev → List CDev
  | CDev.node _ _ _ _ _ _ _ _ _ ps => ps

mutual

/-- Modelled from the spec: the `Device.dependsOn` method lives in the
`devices` package, which is not part of the source tree.  Per the spec,
`A dependsOn B` is read off the Device Graph's parent/child structure
(B is a parent, or an ancestor through parents), plus the special-cased
extended/logical-partition affiliation: every logical partition on a
disk depends on that disk's extended partition. -/
def CDev.dependsOn : CDev → CDev → Bool
  | CDev.node _ _ _ isP _ _ isLog dId _ ps, b =>
    CDev.parentsHaveId ps b.devid || CDev.parentsDepend ps b ||
      (isP && b.isPartition && b.isExtended && isLog && (dId == b.diskId))

def CDev.parentsHaveId : List CDev → Nat → Bool
  | [], _ => false
  | p :: rest, i => (p.devid == i) || CDev.parentsHaveId rest i

def CDev.parentsDepend : List CDev → CDev → Bool
  | [], _ => false
  | p :: rest, b => CDev.dependsOn p b || CDev.parentsDepend rest b

end

/-- An operation as the comparator sees it: kind, operand and device,
plus the grow flag of a resize. -/
structure COp where
  type : OpType
  obj : OpObj
  device : CDev
  grow : Bool

def COp.isCreate (o : COp) : Bool := o.type == OpType.create

def COp.isDestroy (o : COp) : Bool := o.type == OpType.destroy

def COp.isResize (o : COp) : Bool := o.type == OpType.resize

def COp.isMigrate (o : COp) : Bool := o.type == OpType.migrate

def COp.isFormat (o : COp) : Bool := o.obj == OpObj.format

def COp.isGrow (o : COp) : Bool := o.grow

/-- Python 2 `cmp` on integers. -/
def pyCmpInt (a b : Int) : Int :=
  if a < b then -1 else if b < a then 1 else 0

/-- Python 2 `cmp` on strings (lexicographic). -/
def pyCmpStr (a b : String) : Int :=
  if a < b then -1 else if b < a then 1 else 0

/-- Embedding of `cmpOperations` (`devicetree.py` lines 234-374), the pairwise
comparator the Ordering Engine passes to `list.sort`.  `ret` starts at
0 and the branch structure is translated clause by clause; in the
create-versus-create same-path case the source sets `ret = 0` for equal
operand kinds but immediately overwrites it, because line 318 reads
`if a1.isFormat():` rather than `elif`, so that assignment is dead and
is omitted here. -/
def cmpOperations (a1 a2 : COp) : Int :=
  if a1.isDestroy && a2.isDestroy then
    if a1.device.path == a2.device.path then
      if a1.isFormat && a2.isFormat then 0
      else if a1.isFormat && !a2.isFormat then -1
      else if !a1.isFormat && a2.isFormat then 1
      else 0
    else if a1.device.dependsOn a2.device then -1
    else if a2.device.dependsOn a1.device then 1
    else if a1.device.isPartition && a2.device.isPartition then
      (if a1.device.diskId == a2.device.diskId then
        pyCmpInt a2.device.partNum a1.device.partNum
      else pyCmpStr a2.device.name a1.device.name)
    else if a1.device.isPartition && a2.device.partitioned then -1
    else if a2.device.isPartition && a1.device.partitioned then 1
    else if a1.device.isPartition && !a2.device.isPartition then 1
    else if a2.device.isPartition && !a1.device.isPartition then -1
    else 0
  else if a1.isDestroy then -1
  else if a2.isDestroy then 1
  else if a1.isResize && a2.isResize then
    if a1.device.path == a2.device.path then
      if a1.obj == a2.obj then 0
      else if a1.isFormat && !a2.isFormat then
        (if a1.isGrow then 1 else -1)
      else if !a1.isFormat && a2.isFormat then
        (if a1.isGrow then -1 else 1)
      else pyCmpStr a1.device.name a2.device.name
    else if a1.device.dependsOn a2.device then
      (if a1.isGrow then 1 else -1)
    else if a2.device.dependsOn a1.device then
      (if a1.isGrow then -1 else 1)
    else if a1.device.isPartition && a2.device.isPartition then
      pyCmpStr a1.device.name a2.device.name
    else 0
  else if a1.isResize then -1
  else if a2.isResize then 1
  else if a1.isCreate && a2.isCreate then
    if a1.device.path == a2.device.path then
      -- line 316 of the source sets ret to 0 when `a1.obj == a2.obj`,
      -- but the following non-elif `if` overwrites ret unconditionally
      if a1.isFormat then 1
      else if a2.isFormat then -1
      else 0
    else if a1.device.dependsOn a2.device then 1
    else if a2.device.dependsOn a1.device then -1
    else if a1.device.isPartition && a2.device.isPartition then
      (if a1.device.diskId == a2.device.diskId then
        pyCmpInt a1.device.partNum a2.device.partNum
      else pyCmpStr a1.device.name a2.device.name)
    else if a1.device.isPartition && a2.device.partitioned then 1
    else if a2.device.isPartition && a1.device.partitioned then -1
    else if a1.device.isPartition && !a2.device.isPartition then -1
    else if a2.device.isPartition && !a1.device.isPartition then 1
    else 0
  else if a1.isCreate then -1
  else if a2.isCreate then 1
  else if a1.isMigrate && a2.isMigrate then
    if a1.device.path == a2.device.path then 0
    else if a1.device.dependsOn a2.device then 1
    else if a2.device.dependsOn a1.device then -1
    else if a1.device.isPartition && a2.device.isPartition then
      (if a1.device.diskId == a2.device.diskId then
        pyCmpInt a1.device.partNum a2.device.partNum
      else pyCmpStr a1.device.name a2.device.name)
    else 0
  else 0

/-- Two distinct partition devices carrying the same path; the XXX
comment before the extended-partition fix-up in `processOperations`
(lines 404-407) notes that duplicate partition paths do occur in the
tree, and the pruning passes key every removal on `device.id`, never on
paths, so one format-create on each survives pruning. -/
def dupPathDev1 : CDev :=
  CDev.node 11 "/dev/sda6" "sda6" true false false false 1 6 []

/-- Second device with the same path as `dupPathDev1`. -/
def dupPathDev2 : CDev :=
  CDev.node 12 "/dev/sda6" "sda6" true false false false 1 6 []

/-- C3 fails on the code: for two format-create operations on devices
with equal paths, the comparator returns 1 in **both** orders (line 318
reads `if a1.isFormat():` where every sibling branch uses `elif`, so the
equal-operand `ret = 0` of line 316 is overwritten), violating
antisymmetry of the claimed strict weak ordering. -/
theorem c3_cmp_not_antisymmetric :
    cmpOperations ⟨OpType.create, OpObj.format, dupPathDev1, false⟩
      ⟨OpType.create, OpObj.format, dupPathDev2, false⟩ = 1 ∧
    cmpOperations ⟨OpType.create, OpObj.format, dupPathDev2, false⟩
      ⟨OpType.create, OpObj.format, dupPathDev1, false⟩ = 1 := by
  constructor <;> rfl

/-- C7: when device A depends on device B (and not conversely, as for
any two distinct devices of an acyclic device graph) and their paths
differ, the comparator puts the create of B before the create of A and
the destroy of A before the destroy of B. -/
theorem c7_dependency_ordering {A B : CDev}
    (hpath : A.path ≠ B.path)
    (hdep : A.dependsOn B = true) (hndep : B.dependsOn A = false) :
    cmpOperations ⟨OpType.create, OpObj.device, A, false⟩
      ⟨OpType.create, OpObj.device, B, false⟩ = 1 ∧
    cmpOperations ⟨OpType.create, OpObj.device, B, false⟩
      ⟨OpType.create, OpObj.device, A, false⟩ = -1 ∧
    cmpOperations ⟨OpType.destroy, OpObj.device, A, false⟩
      ⟨OpType.destroy, OpObj.device, B, false⟩ = -1 ∧
    cmpOperations ⟨OpType.destroy, OpObj.device, B, false⟩
      ⟨OpType.destroy, OpObj.device, A, false⟩ = 1 := by
  have h1 : (A.path == B.path) = false := by simp [hpath]
  have h2 : (B.path == A.path) = false := by simp [Ne.symm hpath]
  refine ⟨?_, ?_, ?_, ?_⟩ <;>
    simp [cmpOperations, COp.isCreate, COp.isDestroy, COp.isResize,
      COp.isMigrate, COp.isFormat, h1, h2, hdep, hndep]

/-- A disk for the C7 witness. -/
def wDisk : CDev := CDev.node 1 "/dev/sda" "sda" false true false false 0 0 []

/-- A partition of `wDisk` for the C7 witness: it depends on its disk
through the parent link. -/
def wPart : CDev :=
  CDev.node 2 "/dev/sda1" "sda1" true false false false 1 1 [wDisk]

/-- Witness for C7 with a partition depending on its disk. -/
theorem c7_dependency_ordering_witness :
    wPart.dependsOn wDisk = true ∧ wDisk.dependsOn wPart = false ∧
      (cmpOperations ⟨OpType.create, OpObj.device, wPart, false⟩
          ⟨OpType.create, OpObj.device, wDisk, false⟩ = 1 ∧
        cmpOperations ⟨OpType.create, OpObj.device, wDisk, false⟩
          ⟨OpType.create, OpObj.device, wPart, false⟩ = -1 ∧
        cmpOperations ⟨OpType.destroy, OpObj.device, wPart, false⟩
          ⟨OpType.destroy, OpObj.device, wDisk, false⟩ = -1 ∧
        cmpOperations ⟨OpType.destroy, OpObj.device, wDisk, false⟩
          ⟨OpType.destroy, OpObj.device, wPart, false⟩ = 1) :=
  ⟨rfl, rfl,
    c7_dependency_ordering (by decide) rfl rfl⟩

/-! ### The Device Graph and operation registration
(`devicetree.py` lines 95-191, 1253-1261) -/

/-- The attributes of a device's format binding that the graph code
reads: the detected type, the mountpoint (absent attributes read through
`getattr(..., None)` become `none`), and whether the format is a
`formats.filesystem.Filesystem` instance. -/
structure PFormat where
  ftype : String
  mountpoint : Option String
  isFilesystem : Bool
  deriving DecidableEq, Repr

/-- A device node as the graph mutators see it.  `devid` is the object
identity (`device.id`, a global counter in the source), `parents` holds
the ids of the owning devices, `isNoDevice` is
`isinstance(device, NoDevice)`.  `isPartitionOnDisk` stands for
`isinstance(device, Partition) and device.disk is not None`, and
`partedExtended` / `diskHasLogicals` record the partition-table
capability's answers (`partedPartition.type == PARTITION_EXTENDED`,
`len(disk.format.logicalPartitions) > 0`), which are external inputs. -/
structure PDevice where
  devid : Nat
  path : String
  name : String
  isNoDevice : Bool
  parents : List Nat
  format : PFormat
  isPartitionOnDisk : Bool
  partedExtended : Bool
  diskHasLogicals : Bool
  deriving DecidableEq, Repr

/-- Python errors the graph code can raise.  `nameError` is the
interpreter's unbound-local error. -/
inductive PyError
  | valueError (msg : String)
  | deviceTreeError (msg : String)
  | nameError (name : String)
  deriving DecidableEq, Repr

/-- An operation as registration sees it: kind, operand, the device it
references and (for format operations) the snapshot needed to revert the
format-side effect on cancel. -/
structure TOp where
  uid : Nat
  type : OpType
  obj : OpObj
  device : PDevice
  origFormat : PFormat
  deriving DecidableEq, Repr

def TOp.isCreate (o : TOp) : Bool := o.type == OpType.create

def TOp.isDestroy (o : TOp) : Bool := o.type == OpType.destroy

def TOp.isResize (o : TOp) : Bool := o.type == OpType.resize

def TOp.isMigrate (o : TOp) : Bool := o.type == OpType.migrate

def TOp.isDevice (o : TOp) : Bool := o.obj == OpObj.device

def TOp.isFormat (o : TOp) : Bool := o.obj == OpObj.format

/-- The mutable state of a `DeviceTree`: `_devices` and `operations`. -/
structure DTState where
  devices : List PDevice
  operations : List TOp
  deriving DecidableEq, Repr

/-- Python `device in self._devices` (identity). -/
def devMem (devs : List PDevice) (d : PDevice) : Bool :=
  devs.any (fun e => e.devid == d.devid)

/-- Python `self._devices.remove(device)`. -/
def removeFirstDev : List PDevice → Nat → List PDevice
  | [], _ => []
  | e :: rest, i => if e.devid == i then rest else e :: removeFirstDev rest i

/-- Modelled from the spec: `device.isleaf` lives in the `devices`
package, which is not in the source tree; the spec defines it as
derived, "no other device lists it as parent". -/
def isleaf (devs : List PDevice) (d : PDevice) : Bool :=
  !(devs.any (fun c => c.parents.contains d.devid))

/-- Embedding of `DeviceTree._addDevice` (lines 95-110).  The duplicate-path guard is
`device.path in [d.path for d in self._devices] and not
isinstance(newdev, NoDevice)` where `newdev` is bound nowhere: when the
left operand is true Python evaluates the right one and raises
`NameError`, so every duplicate path aborts the call this way and the
`NoDevice` exemption is dead.  Otherwise a missing parent raises
`DeviceTreeError` and the device is appended. -/
def addDevice (s : DTState) (d : PDevice) : DTState × Option PyError :=
  if (s.devices.map PDevice.path).contains d.path then
    (s, some (PyError.nameError ("newdev")))
  else if d.parents.any (fun p => !(s.devices.any (fun e => e.devid == p))) then
    (s, some (PyError.deviceTreeError ("parent device not in tree")))
  else ({ s with devices := s.devices ++ [d] }, none)

/-- Embedding of `DeviceTree._removeDevice` (lines 112-148).  The parted-side effects
(`removePartition`, the sibling `updateName` refresh) talk to the
external partition-table capability and do not change graph membership;
the name refresh is not modelled because the new names are external
inputs no claim reads.  `parent.removeChild()` maintains the kids
counter, which the spec-modelled derived `isleaf` makes redundant. -/
def removeDevice (s : DTState) (d : PDevice) (force : Bool)
    (moddisk : Bool) : DTState × Option PyError :=
  if !(devMem s.devices d) then
    (s, some (PyError.valueError ("Device not in tree")))
  else if !(isleaf s.devices d) && !force then
    (s, some (PyError.valueError ("Cannot remove non-leaf device")))
  else if moddisk && d.isPartitionOnDisk && d.partedExtended &&
      d.diskHasLogicals then
    (s, some (PyError.valueError ("Cannot remove extended partition")))
  else
    ({ s with devices := removeFirstDev s.devices d.devid }, none)

/-- Embedding of `DeviceTree.filesystems` (lines 1253-1261): the formats of the leaf
devices whose format has a truthy mountpoint.  Note the property returns
the format objects themselves, not their mountpoints. -/
def filesystems (devs : List PDevice) : List PFormat :=
  (devs.filter (fun d => isleaf devs d)).filterMap
    (fun d =>
      match d.format.mountpoint with
      | some m => if m ≠ "" then some d.format else none
      | none => none)

/-- Python `==` between a mountpoint value (a string, or None) and a
Format instance.  The Format class is not in the source tree; modelled
from the spec, which gives it no equality with strings, so Python falls
back to default object identity, and a str or None is never the same
object as a Format instance: the comparison is constantly false. -/
def mountpointEqFormat (m : Option String) (f : PFormat) : Bool := false

/-- Embedding of `operation.device.format.mountpoint in self.filesystems`
(line 171): Python list membership applies `==` elementwise. -/
def mountpointInFilesystems (m : Option String) (fs : List PFormat) : Bool :=
  fs.any (fun f => mountpointEqFormat m f)

/-- The stale-duplicate removal loop of `addOperation` for a device
create (lines 161-163): Python iterates `self._devices` by index while
`_removeDevice` shrinks the same list, so the element that shifts into
the removed slot is skipped; an error from `_removeDevice` propagates
with the removals so far applied.  `fuel` bounds the index walk by the
initial list length. -/
def removeDupPathsGo : Nat → DTState → String → Nat → DTState × Option PyError
  | 0, s, _, _ => (s, none)
  | fuel + 1, s, p, i =>
    match s.devices[i]? with
    | none => (s, none)
    | some d =>
      if d.path == p then
        match removeDevice s d false true with
        | (s2, some e) => (s2, some e)
        | (s2, none) => removeDupPathsGo fuel s2 p (i + 1)
      else removeDupPathsGo fuel s p (i + 1)

def removeDupPaths (s : DTState) (p : String) : DTState × Option PyError :=
  removeDupPathsGo s.devices.length s p 0

/-- Embedding of `DeviceTree.addOperation` (lines 150-175): precondition check, the
re-create supersede path, the structural side effect, then the append.
A raise leaves the mutations made so far in place and skips the
append. -/
def addOperation (s : DTState) (op : TOp) : DTState × Option PyError :=
  if (op.isDestroy || op.isResize || (op.isCreate && op.isFormat)) &&
      !(devMem s.devices op.device) then
    (s, some (PyError.deviceTreeError ("device is not in the tree")))
  else
    let step1 : DTState × Option PyError :=
      if op.isCreate && op.isDevice then
        if devMem s.devices op.device then
          match removeDevice s op.device false true with
          | (s2, some e) => (s2, some e)
          | (s2, none) => removeDupPaths s2 op.device.path
        else removeDupPaths s op.device.path
      else (s, none)
    match step1 with
    | (s1, some e) => (s1, some e)
    | (s1, none) =>
      let step2 : DTState × Option PyError :=
        if op.isCreate && op.isDevice then addDevice s1 op.device
        else if op.isDestroy && op.isDevice then
          removeDevice s1 op.device false true
        else if op.isCreate && op.isFormat then
          if op.device.format.isFilesystem &&
              mountpointInFilesystems op.device.format.mountpoint
                (filesystems s1.devices) then
            (s1, some (PyError.deviceTreeError ("mountpoint already in use")))
          else (s1, none)
        else (s1, none)
      match step2 with
      | (s2, some e) => (s2, some e)
      | (s2, none) =>
        ({ s2 with operations := s2.operations ++ [op] }, none)

/-- Modelled from the spec: `operation.cancel()` of a format
create/migrate/resize reverts the format-side effect (the operation
classes are not in the source tree); embedded as restoring the snapshot
format recorded on the operation to the tree's device. -/
def cancelFormatOp (devs : List PDevice) (op : TOp) : List PDevice :=
  devs.map (fun e =>
    if e.devid == op.device.devid then { e with format := op.origFormat }
    else e)

/-- Python `op in operations` / `operations.remove(op)` (identity). -/
def containsTOpUid (L : List TOp) (u : Nat) : Bool :=
  L.any (fun o => o.uid == u)

def removeFirstTOp : List TOp → Nat → List TOp
  | [], _ => []
  | o :: rest, u => if o.uid == u then rest else o :: removeFirstTOp rest u

/-- Embedding of `DeviceTree.removeOperation` (lines 177-191): the inverse structural
side effect is applied first, then the operation is removed from the
log; `list.remove` raises `ValueError` when the operation is not
registered, after the side effect has already mutated the tree. -/
def removeOperation (s : DTState) (op : TOp) : DTState × Option PyError :=
  let step1 : DTState × Option PyError :=
    if op.isCreate && op.isDevice then removeDevice s op.device false true
    else if op.isDestroy && op.isDevice then addDevice s op.device
    else if op.isFormat && (op.isCreate || op.isMigrate || op.isResize) then
      ({ s with devices := cancelFormatOp s.devices op }, none)
    else (s, none)
  match step1 with
  | (s1, some e) => (s1, some e)
  | (s1, none) =>
    if containsTOpUid s1.operations op.uid then
      ({ s1 with operations := removeFirstTOp s1.operations op.uid }, none)
    else (s1, some (PyError.valueError ("list.remove(x): x not in list")))

/-! ### C1, C2, C9, C10: registration and cancellation -/

/-- A filesystem format mounted at `/data`. -/
def fsData : PFormat := ⟨"ext4", some ("/data"), true⟩

/-- Device E: a leaf already carrying a filesystem mounted at /data. -/
def devE : PDevice :=
  ⟨1, "/dev/sdb1", "sdb1", false, [], fsData, false, false, false⟩

/-- Device D: a different leaf whose pending format also claims /data
(the operation constructor has already bound the new format, which is
what line 170 reads back as `operation.device.format`). -/
def devD : PDevice :=
  ⟨2, "/dev/sdc1", "sdc1", false, [], fsData, false, false, false⟩

/-- Tree holding both leaves. -/
def c1State : DTState := ⟨[devE, devD], []⟩

/-- The format-create registration on D. -/
def c1Op : TOp := ⟨10, OpType.create, OpObj.format, devD, ⟨"", none, false⟩⟩

/-- C1 fails on the code: although device E's format already uses
mountpoint /data and `filesystems` exposes it, registering the
format-create on D raises nothing and appends the operation, because
line 171 tests the mountpoint **string** for membership in the list of
format **objects** returned by `filesystems`, a comparison that is
always false. -/
theorem c1_mountpoint_check_dead :
    devE.format.mountpoint = some ("/data") ∧
    devD.format.mountpoint = some ("/data") ∧
    fsData ∈ filesystems c1State.devices ∧
    addOperation c1State c1Op =
      (⟨[devE, devD], [c1Op]⟩, none) := by
  refine ⟨rfl, rfl, by decide, by decide⟩

/-- A `NoDevice` placeholder occupying path /dev/x. -/
def placeholderDev : PDevice :=
  ⟨3, "/dev/x", "x", true, [], ⟨"", none, false⟩, false, false, false⟩

/-- A real (non-placeholder) device proposed for the same path, with no
parents. -/
def realDev : PDevice :=
  ⟨4, "/dev/x", "x", false, [], ⟨"", none, false⟩, false, false, false⟩

/-- Tree holding only the placeholder. -/
def c2State : DTState := ⟨[placeholderDev], []⟩

/-- C2 fails on the code: only a placeholder occupies the path and every
parent of the new device is present, so per the claim the add should
append; instead `_addDevice` raises `NameError` (its guard references
the unbound name `newdev`) on **every** duplicate path and the device is
not appended. -/
theorem c2_duplicate_path_name_error :
    placeholderDev.isNoDevice = true ∧ realDev.isNoDevice = false ∧
    placeholderDev.path = realDev.path ∧ realDev.parents = [] ∧
    addDevice c2State realDev =
      (c2State, some (PyError.nameError ("newdev"))) := by
  refine ⟨rfl, rfl, rfl, rfl, by decide⟩

/-- C10: a device-destroy registration for a device that is present but
not a leaf fails inside the immediate structural side effect (the
non-forced `_removeDevice` refuses non-leaves), and the operation is not
appended: the state, log included, is returned unchanged. -/
theorem c10_destroy_nonleaf_rejected {s : DTState} {op : TOp}
    (ht : op.type = OpType.destroy) (ho : op.obj = OpObj.device)
    (hmem : devMem s.devices op.device = true)
    (hleaf : isleaf s.devices op.device = false) :
    addOperation s op =
      (s, some (PyError.valueError ("Cannot remove non-leaf device"))) := by
  simp [addOperation, removeDevice, TOp.isDestroy, TOp.isCreate,
    TOp.isResize, TOp.isDevice, TOp.isFormat, ht, ho, hmem, hleaf]

/-- A disk with one partition, so the disk is not a leaf. -/
def c10Disk : PDevice :=
  ⟨5, "/dev/sdd", "sdd", false, [], ⟨"disklabel", none, false⟩,
    false, false, false⟩

/-- The partition backing `c10Disk` as a parent. -/
def c10Part : PDevice :=
  ⟨6, "/dev/sdd1", "sdd1", false, [5], ⟨"ext4", some ("/home"), true⟩,
    true, false, false⟩

/-- Tree with the disk and its partition. -/
def c10State : DTState := ⟨[c10Disk, c10Part], []⟩

/-- Destroy registration aimed at the non-leaf disk. -/
def c10Op : TOp := ⟨11, OpType.destroy, OpObj.device, c10Disk, ⟨"", none, false⟩⟩

/-- Witness for C10 on the concrete two-device tree. -/
theorem c10_destroy_nonleaf_rejected_witness :
    devMem c10State.devices c10Disk = true ∧
    isleaf c10State.devices c10Disk = false ∧
    addOperation c10State c10Op =
      (c10State, some (PyError.valueError ("Cannot remove non-leaf device"))) :=
  ⟨by decide, by decide,
    c10_destroy_nonleaf_rejected rfl rfl (by decide) (by decide)⟩

/-- A leaf device present in the tree. -/
def c9Dev : PDevice :=
  ⟨7, "/dev/sde", "sde", false, [], ⟨"", none, false⟩, false, false, false⟩

/-- Tree holding that device, with an empty operation log. -/
def c9State : DTState := ⟨[c9Dev], []⟩

/-- An unregistered destroy operation for the still-present device. -/
def c9Op : TOp := ⟨12, OpType.destroy, OpObj.device, c9Dev, ⟨"", none, false⟩⟩

/-- C9 fails as stated: canceling an unregistered device-destroy whose
device is still in the tree raises before any mutation (the re-add hits
the duplicate-path `NameError`), so the error is **not** raised "only
after applying the inverse side effect" and the graph is left
unchanged. -/
theorem c9_cancel_counterexample :
    removeOperation c9State c9Op =
      (c9State, some (PyError.nameError ("newdev"))) := by
  decide

/-- Amended C9: when the inverse side effect itself succeeds — here a
device-create cancel whose device is a removable leaf — canceling an
operation that is not in the log first applies the side effect (the
device is removed from the graph) and only then raises the
`list.remove` `ValueError`: cancel is not atomic on this error path. -/
theorem c9_cancel_mutates_then_errors {s : DTState} {op : TOp}
    (ht : op.type = OpType.create) (ho : op.obj = OpObj.device)
    (hmem : devMem s.devices op.device = true)
    (hleaf : isleaf s.devices op.device = true)
    (hext : op.device.isPartitionOnDisk = false)
    (hnotin : containsTOpUid s.operations op.uid = false) :
    removeOperation s op =
      ({ s with devices := removeFirstDev s.devices op.device.devid },
        some (PyError.valueError ("list.remove(x): x not in list"))) := by
  simp [removeOperation, removeDevice, TOp.isDestroy, TOp.isCreate,
    TOp.isResize, TOp.isMigrate, TOp.isDevice, TOp.isFormat,
    ht, ho, hmem, hleaf, hext, hnotin]

/-- An unregistered create operation for the leaf device of
`c9State`. -/
def c9CreateOp : TOp := ⟨13, OpType.create, OpObj.device, c9Dev, ⟨"", none, false⟩⟩

/-- Witness for the amended C9: the device is removed from the concrete
tree even though the cancel call errors. -/
theorem c9_cancel_mutates_then_errors_witness :
    containsTOpUid c9State.operations c9CreateOp.uid = false ∧
    removeOperation c9State c9CreateOp =
      (⟨[], []⟩, some (PyError.valueError ("list.remove(x): x not in list"))) :=
  ⟨by decide,
    c9_cancel_mutates_then_errors rfl rfl (by decide) (by decide)
      (by decide) (by decide)⟩

/-! ### The Execution Driver's execute/retry loop
(`devicetree.py` lines 428-444) -/

/-- Modelled from the spec: outcome of one `operation.execute()` call
against the external format/partition-table collaborator (the operation
classes are not in the source tree).  The only failure the driver
handles is the disklabel-commit conflict. -/
inductive ExecOutcome
  | ok
  | diskLabelCommitError
  deriving DecidableEq, Repr

/-- Observable driver actions: an execute call for an operation, and
`teardownAll` (which runs recursive teardown over every leaf, covering
every device in the graph). -/
inductive CommitEvent
  | exec (uid : Nat)
  | teardownAll
  deriving DecidableEq, Repr

/-- The execute/retry loop at the end of `processOperations` (lines
428-444): each operation is executed unless `dryRun`; on
`DiskLabelCommitError` the driver calls `teardownAll` and re-executes
the same operation once, outside any handler, so a second failure
propagates and the remaining operations never run.  `res u k` is the
collaborator's outcome of the k-th execute call for operation `u`
(0 = first try, 1 = the retry).  The result is the event trace plus
whether the loop ran to completion; the per-operation partition-rename
fix-up after a success touches only external naming state and is not
modelled. -/
def executeLoop (res : Nat → Nat → ExecOutcome) (dryRun : Bool) :
    List Nat → List CommitEvent × Bool
  | [] => ([], true)
  | u :: rest =>
    if dryRun then executeLoop res dryRun rest
    else
      match res u 0 with
      | ExecOutcome.ok =>
        let r := executeLoop res dryRun rest
        (CommitEvent.exec u :: r.1, r.2)
      | ExecOutcome.diskLabelCommitError =>
        match res u 1 with
        | ExecOutcome.ok =>
          let r := executeLoop res dryRun rest
          (CommitEvent.exec u :: CommitEvent.teardownAll ::
            CommitEvent.exec u :: r.1, r.2)
        | ExecOutcome.diskLabelCommitError =>
          ([CommitEvent.exec u, CommitEvent.teardownAll,
            CommitEvent.exec u], false)

/-- C6: in a non-dry-run commit, an operation failing with
`DiskLabelCommitError` triggers a full teardown and exactly one retry of
that same operation.  If the retry fails again the commit aborts with no
later operation executed; if the retry succeeds the loop continues with
the remaining operations. -/
theorem c6_dlce_retry_abort (res : Nat → Nat → ExecOutcome)
    (pre post : List Nat) (u : Nat)
    (hpre : ∀ v ∈ pre, res v 0 = ExecOutcome.ok)
    (hfail : res u 0 = ExecOutcome.diskLabelCommitError) :
    (res u 1 = ExecOutcome.diskLabelCommitError →
      executeLoop res false (pre ++ u :: post) =
        (pre.map CommitEvent.exec ++
          [CommitEvent.exec u, CommitEvent.teardownAll, CommitEvent.exec u],
          false)) ∧
    (res u 1 = ExecOutcome.ok →
      executeLoop res false (pre ++ u :: post) =
        (pre.map CommitEvent.exec ++
          (CommitEvent.exec u :: CommitEvent.teardownAll ::
            CommitEvent.exec u :: (executeLoop res false post).1),
          (executeLoop res false post).2)) := by
  induction pre with
  | nil =>
    constructor
    · intro h2
      simp [executeLoop, hfail, h2]
    · intro h2
      simp [executeLoop, hfail, h2]
  | cons v vs ih =>
    have hv : res v 0 = ExecOutcome.ok := hpre v (by simp)
    obtain ⟨ih1, ih2⟩ := ih (fun w hw => hpre w (by simp [hw]))
    constructor
    · intro h2
      simp only [List.cons_append, executeLoop, Bool.false_eq_true,
        if_false, hv, List.append_eq, ih1 h2, List.map_cons]
    · intro h2
      simp only [List.cons_append, executeLoop, Bool.false_eq_true,
        if_false, hv, List.append_eq, ih2 h2, List.map_cons]

/-- Outcome table for the C6 witness: operation 2 hits the disklabel
conflict on both attempts, the others succeed. -/
def c6Res : Nat → Nat → ExecOutcome :=
  fun u _ =>
    if u == 2 then ExecOutcome.diskLabelCommitError else ExecOutcome.ok

/-- Witness for C6: with operations [1, 2, 3] and operation 2 failing
twice, the trace is exec 1, exec 2, teardownAll, exec 2 and the commit
aborts; operation 3 is never executed. -/
theorem c6_dlce_retry_abort_witness :
    executeLoop c6Res false [1, 2, 3] =
      ([CommitEvent.exec 1, CommitEvent.exec 2, CommitEvent.teardownAll,
        CommitEvent.exec 2], false) :=
  (c6_dlce_retry_abort c6Res [1] [3] 2 (by decide) (by decide)).1 (by decide)

end Yali
